import Mathlib

/-!
Verification of the pilot HTTP-to-gRPC gateway against its specification.

The Go sources are shallowly embedded: pure fragments become Lean
functions, maps become association lists (`alLookup` / `alSet` /
`alRemove`, first-occurrence semantics, which coincides with Go map
semantics because the code never creates duplicate keys), byte strings
become `String` values manipulated through character lists so that every
definition evaluates inside the kernel, and the 64-bit counter arithmetic
of the service pool is made explicit with `Int` and a two-complement
wrap.  Fallible operations return `Except` or pair their result with an
`Option String` error component, matching the Go `(T, error)` shape.
-/

/-! ## Association-list helpers (model of Go string-keyed maps) -/

/-- Lookup of the first binding of key `k`. -/
def alLookup {α : Type} (l : List (String × α)) (k : String) : Option α :=
  match l with
  | [] => none
  | (k₀, v₀) :: t => if k = k₀ then some v₀ else alLookup t k

/-- Replace the first binding of key `k`, or append a new binding.  This is
the model of a Go map assignment `m[k] = v`. -/
def alSet {α : Type} (k : String) (v : α) (l : List (String × α)) : List (String × α) :=
  match l with
  | [] => [(k, v)]
  | (k₀, v₀) :: t => if k₀ = k then (k, v) :: t else (k₀, v₀) :: alSet k v t

/-- Remove the first binding of key `k`.  This is the model of the Go
builtin `delete(m, k)`. -/
def alRemove {α : Type} (k : String) (l : List (String × α)) : List (String × α) :=
  match l with
  | [] => []
  | (k₀, v₀) :: t => if k₀ = k then t else (k₀, v₀) :: alRemove k t

/-! ## JSON values

Model of the dynamic JSON data manipulated by the transcoder
(`map[string]any` values produced by `sonic.Unmarshal`).  Numbers are
modelled as integers, which is enough for every claim. -/
inductive Json where
  | null : Json
  | bool (b : Bool) : Json
  | num (n : Int) : Json
  | str (s : String) : Json
  | arr (elems : List Json) : Json
  | obj (fields : List (String × Json)) : Json

/-! ## Transcoder: BuildRequestJSON (src/internal/transcoder/grpcinvoker.go)

The HTTP request is abstracted to the parts the function reads: the
method string, the captured path parameters (`map[string]string`), the
parsed query (`url.Values`, a `map[string][]string`), and the request
body.  An empty body (`len(body) == 0`) is modelled as `none`; a
non-empty body that parses as JSON is `some j`.  The produced
`map[string]any` is an association list of JSON values. -/
/-- Model of the query-parameter assignment: a single value is stored as a
string, repeated values as an array of strings. -/
def queryValue (values : List String) : Json :=
  match values with
  | [v] => Json.str v
  | _ => Json.arr (values.map Json.str)

/-- The path-parameter and query-parameter part of the request map, built
exactly in the order of BuildRequestJSON: path parameters first, then
query parameters. -/
def requestBase (pathParams : List (String × String)) (query : List (String × List String)) :
    List (String × Json) :=
  query.foldl (fun m kv => alSet kv.1 (queryValue kv.2) m)
    (pathParams.foldl (fun m kv => alSet kv.1 (Json.str kv.2) m) [])

/-- Model of `BuildRequestJSON` from src/internal/transcoder/grpcinvoker.go. -/
def BuildRequestJSON (method : String) (pathParams : List (String × String))
    (query : List (String × List String)) (body : Option Json) (bodyField : String) :
    Except String (List (String × Json)) :=
  let requestMap := requestBase pathParams query
  if method != "GET" && method != "DELETE" then
    match body with
    | none => Except.ok requestMap
    | some bodyJson =>
      if bodyField == "*" then
        match bodyJson with
        | Json.obj bodyMap =>
          Except.ok (bodyMap.foldl (fun m kv => alSet kv.1 kv.2 m) requestMap)
        | _ => Except.error "failed to unmarshal body"
      else if bodyField != "" then
        Except.ok (alSet bodyField bodyJson requestMap)
      else
        Except.ok requestMap
  else
    Except.ok requestMap

/-- First-some choice on options, used to phrase override behaviour. -/
def optOr {α : Type} (a b : Option α) : Option α :=
  match a with
  | some v => some v
  | none => b

/-- The value bound to key `k` by the LAST binding of `k` in `l`, which is
the binding that survives a left-to-right sequence of map assignments. -/
def lastValue {β : Type} (l : List (String × β)) (k : String) : Option β :=
  (l.reverse.find? (fun kv => kv.1 == k)).map Prod.snd

/-! ## Error mapping (ServeHTTP pipeline, src/unnamed/part_000) -/
/-- The uniform JSON response envelope `Result`. -/
structure Result where
  code : Int
  msg : String
  data : Json

/-- Model of an error returned by the invoker: either it carries a gRPC
status (the `status.FromError` succeeds case) with its numeric code and
message, or it is a plain Go error with only a text. -/
inductive GoError where
  | grpcStatus (code : Nat) (msg : String) : GoError
  | plain (msg : String) : GoError
deriving DecidableEq

/-- Model of `mapGRPCCodeToHTTP` from src/unnamed/part_000, a switch on the
gRPC numeric code (OK=0, Canceled=1, Unknown=2, InvalidArgument=3,
DeadlineExceeded=4, NotFound=5, AlreadyExists=6, PermissionDenied=7,
ResourceExhausted=8, FailedPrecondition=9, Aborted=10, OutOfRange=11,
Unimplemented=12, Internal=13, Unavailable=14, DataLoss=15,
Unauthenticated=16). -/
def mapGRPCCodeToHTTP (code : Nat) : Nat :=
  if code = 0 then 200       -- OK
  else if code = 1 then 408  -- Canceled
  else if code = 2 then 500  -- Unknown
  else if code = 3 then 400  -- InvalidArgument
  else if code = 4 then 408  -- DeadlineExceeded
  else if code = 5 then 404  -- NotFound
  else if code = 6 then 409  -- AlreadyExists
  else if code = 7 then 403  -- PermissionDenied
  else if code = 8 then 429  -- ResourceExhausted
  else if code = 9 then 400  -- FailedPrecondition
  else if code = 10 then 409 -- Aborted
  else if code = 11 then 400 -- OutOfRange
  else if code = 12 then 501 -- Unimplemented
  else if code = 13 then 500 -- Internal
  else if code = 14 then 503 -- Unavailable
  else if code = 15 then 500 -- DataLoss
  else if code = 16 then 401 -- Unauthenticated
  else 200                   -- default

/-- Model of `mapErrorToHTTP` from src/unnamed/part_000. -/
def mapErrorToHTTP (err : GoError) : Nat × Result :=
  match err with
  | GoError.grpcStatus code msg => (mapGRPCCodeToHTTP code, ⟨(code : Int), msg, Json.null⟩)
  | GoError.plain msg => (500, ⟨-1, msg, Json.null⟩)

/-- The gRPC-to-HTTP status table exactly as the specification claim words
it (grouped by target status, with every unlisted code mapped to 200). -/
def specGRPCTable (code : Nat) : Nat :=
  if code = 0 then 200
  else if code = 1 ∨ code = 4 then 408
  else if code = 3 ∨ code = 9 ∨ code = 11 then 400
  else if code = 5 then 404
  else if code = 6 ∨ code = 10 then 409
  else if code = 7 then 403
  else if code = 16 then 401
  else if code = 8 then 429
  else if code = 12 then 501
  else if code = 2 ∨ code = 13 ∨ code = 15 then 500
  else if code = 14 then 503
  else 200

/-! ## Radix route tree (src/unnamed/part_001)

The tree node carries every field of the Go struct `node[T]`: the segment
label, the node type, the static children map, the parameter child with
its name, the wildcard child with its name, the optional value and the
full path recorded beside it.  The Go code mutates the tree in place and
returns an `error`; the model returns the (possibly partially modified)
tree together with an optional error string, which captures the fact that
a failing `Insert` keeps the nodes it created before the failure. -/
inductive NodeType where
  | Static : NodeType
  | Param : NodeType
  | Wildcard : NodeType
deriving DecidableEq

inductive Node (T : Type) where
  | mk (segment : String) (typeOf : NodeType)
       (children : List (String × Node T))
       (paramName : String) (paramChild : Option (Node T))
       (wildName : String) (wildChild : Option (Node T))
       (value : Option T) (fullPath : String) : Node T

def Node.segment {T : Type} : Node T → String
  | .mk s _ _ _ _ _ _ _ _ => s

def Node.typeOf {T : Type} : Node T → NodeType
  | .mk _ ty _ _ _ _ _ _ _ => ty

def Node.children {T : Type} : Node T → List (String × Node T)
  | .mk _ _ c _ _ _ _ _ _ => c

def Node.paramName {T : Type} : Node T → String
  | .mk _ _ _ pn _ _ _ _ _ => pn

def Node.paramChild {T : Type} : Node T → Option (Node T)
  | .mk _ _ _ _ pc _ _ _ _ => pc

def Node.wildName {T : Type} : Node T → String
  | .mk _ _ _ _ _ wn _ _ _ => wn

def Node.wildChild {T : Type} : Node T → Option (Node T)
  | .mk _ _ _ _ _ _ wc _ _ => wc

def Node.value {T : Type} : Node T → Option T
  | .mk _ _ _ _ _ _ _ v _ => v

def Node.fullPath {T : Type} : Node T → String
  | .mk _ _ _ _ _ _ _ _ fp => fp

/-- Model of `NewRouteTree`: the root is a static node with an empty
children map and no value. -/
def NewRouteTree (T : Type) : Node T :=
  Node.mk "" NodeType.Static [] "" none "" none none ""

/-! ### Path splitting helpers (Go byte-level string operations) -/
/-- Character-level split, the model of `strings.Split` with a one-char
separator. -/
def chSplit (sep : Char) : List Char → List (List Char)
  | [] => [[]]
  | c :: rest =>
    let r := chSplit sep rest
    if c = sep then [] :: r
    else
      match r with
      | [] => [[c]]
      | h :: t => (c :: h) :: t

/-- Model of `strings.Trim(p, " ")`: strip leading and trailing spaces. -/
def trimSpaceChars (l : List Char) : List Char :=
  ((l.dropWhile (fun c => c = ' ')).reverse.dropWhile (fun c => c = ' ')).reverse

/-- Model of slicing the string before the first occurrence of `c`
(`p[:strings.IndexByte(p, c)]`, or `p` itself when absent). -/
def takeUntil (c : Char) (l : List Char) : List Char :=
  l.takeWhile (fun d => d ≠ c)

/-- Model of the collapse loop replacing `//` by `/` until none remains. -/
def collapseSlashes : List Char → List Char
  | [] => []
  | [c] => [c]
  | c :: d :: rest =>
    if c = '/' && d = '/' then collapseSlashes (d :: rest)
    else c :: collapseSlashes (d :: rest)

/-- Whether the first byte of `s` is `c` (the model of `s[0] == c` guarded
by non-emptiness). -/
def chStartsWith (s : String) (c : Char) : Bool :=
  match s.data with
  | [] => false
  | d :: _ => d == c

/-- Model of the slice `s[1:]`. -/
def strDrop1 (s : String) : String :=
  match s.data with
  | [] => ""
  | _ :: rest => String.mk rest

/-- Model of `strings.Join(elems, sep)`. -/
def strJoin (sep : String) : List String → String
  | [] => ""
  | [s] => s
  | s :: rest => String.mk (s.data ++ sep.data ++ (strJoin sep rest).data)

/-- Model of `splitPath` from src/unnamed/part_001: trim spaces, strip the
query and fragment, collapse duplicate slashes, normalise the leading
slash and split on `/`, dropping the leading empty segment. -/
def splitPath (path : String) : List String :=
  if path = "" then [""]
  else
    let p₁ := takeUntil '#' (takeUntil '?' (trimSpaceChars path.data))
    let p₂ := collapseSlashes p₁
    if String.mk p₂ = "/" then [""]
    else
      let p₃ := if p₂ ≠ [] && !(p₂.headD ' ' == '/') then '/' :: p₂ else p₂
      let segs := (chSplit '/' p₃).map String.mk
      match segs with
      | "" :: rest => rest
      | other => other

/-- Whether a node has become value-less and child-less (the compaction
test of `Delete`). -/
def isEmptyNode {T : Type} (n : Node T) : Bool :=
  n.value.isNone && n.children.isEmpty && n.paramChild.isNone && n.wildChild.isNone

/-! ### Insert -/
/-- The descent loop of `Insert`, structurally recursive on the segment
list.  Returns the rebuilt subtree together with the optional error; on
error the nodes created before the failure are kept, exactly as the
in-place Go mutation does. -/
def insertAux {T : Type} (n : Node T) (segs : List String) (path : String) (v : T) :
    Node T × Option String :=
  match segs with
  | [] =>
    (Node.mk n.segment n.typeOf n.children n.paramName n.paramChild n.wildName n.wildChild
      (some v) path, none)
  | s :: rest =>
    if s = "" then insertAux n rest path v
    else if chStartsWith s ':' then
      let name := strDrop1 s
      if name = "" then (n, some "param name cannot be empty")
      else if n.wildChild.isSome then
        (n, some "conflict: wildcard and param at same level")
      else
        match n.paramChild with
        | none =>
          let child := Node.mk s NodeType.Param [] name none "" none none ""
          let res := insertAux child rest path v
          (Node.mk n.segment n.typeOf n.children n.paramName (some res.1) n.wildName
            n.wildChild n.value n.fullPath, res.2)
        | some p =>
          if p.paramName ≠ name then
            (n, some "conflict: different param names at same level")
          else
            let res := insertAux p rest path v
            (Node.mk n.segment n.typeOf n.children n.paramName (some res.1) n.wildName
              n.wildChild n.value n.fullPath, res.2)
    else if chStartsWith s '*' then
      let name := strDrop1 s
      if name = "" then (n, some "wildcard name cannot be empty")
      else if rest ≠ [] then (n, some "wildcard must be the last segment")
      else if !n.children.isEmpty || n.paramChild.isSome then
        (n, some "conflict: wildcard cannot coexist with other children")
      else
        match n.wildChild with
        | none =>
          let child := Node.mk s NodeType.Wildcard [] "" none name none none ""
          let res := insertAux child rest path v
          (Node.mk n.segment n.typeOf n.children n.paramName n.paramChild n.wildName
            (some res.1) n.value n.fullPath, res.2)
        | some w =>
          let res := insertAux w rest path v
          (Node.mk n.segment n.typeOf n.children n.paramName n.paramChild n.wildName
            (some res.1) n.value n.fullPath, res.2)
    else
      match alLookup n.children s with
      | none =>
        let child := Node.mk s NodeType.Static [] "" none "" none none ""
        let res := insertAux child rest path v
        (Node.mk n.segment n.typeOf (alSet s res.1 n.children) n.paramName n.paramChild
          n.wildName n.wildChild n.value n.fullPath, res.2)
      | some c =>
        let res := insertAux c rest path v
        (Node.mk n.segment n.typeOf (alSet s res.1 n.children) n.paramName n.paramChild
          n.wildName n.wildChild n.value n.fullPath, res.2)

/-- Model of `RouteTree.Insert`.  The tree is represented by its root
node; the returned pair carries the updated tree and the error. -/
def RouteTree.Insert {T : Type} (t : Node T) (path : String) (v : T) :
    Node T × Option String :=
  if (path == "") || !(chStartsWith path '/') then
    (t, some "path must start with a slash")
  else
    insertAux t (splitPath path) path v

/-! ### Lookup -/
/-- The descent loop of `Lookup` with the static, parameter, wildcard
priority; a wildcard consumes the joined remainder and stops. -/
def lookupAux {T : Type} (n : Node T) (segs : List String)
    (params : List (String × String)) : Option (T × List (String × String)) :=
  match segs with
  | [] =>
    match n.value with
    | none => none
    | some v => some (v, params)
  | s :: rest =>
    if s = "" then lookupAux n rest params
    else
      match alLookup n.children s with
      | some c => lookupAux c rest params
      | none =>
        match n.paramChild with
        | some pc => lookupAux pc rest (alSet pc.paramName s params)
        | none =>
          match n.wildChild with
          | some wc =>
            match wc.value with
            | none => none
            | some v => some (v, alSet wc.wildName (strJoin "/" (s :: rest)) params)
          | none => none

/-- Model of `RouteTree.Lookup`: `none` plays the role of the
`(zero, nil, false)` result. -/
def RouteTree.Lookup {T : Type} (t : Node T) (path : String) :
    Option (T × List (String × String)) :=
  if (path == "") || !(chStartsWith path '/') then none
  else lookupAux t (splitPath path) []

/-! ### Delete -/
/-- Clear the value and full path of a node (the terminal step of
`Delete`). -/
def clearValue {T : Type} (n : Node T) : Node T :=
  Node.mk n.segment n.typeOf n.children n.paramName n.paramChild n.wildName n.wildChild
    none ""

/-- The descent-and-compact recursion of `Delete`.  Returns the rebuilt
subtree and whether a value was removed; ancestors that become value-less
and child-less after the removal are unlinked, mirroring the bottom-up
stack compaction of the Go code. -/
def deleteAux {T : Type} (n : Node T) (segs : List String) : Node T × Bool :=
  match segs with
  | [] => (clearValue n, n.value.isSome)
  | s :: rest =>
    if s = "" then deleteAux n rest
    else
      match alLookup n.children s with
      | some c =>
        let res := deleteAux c rest
        if res.2 && isEmptyNode res.1 then
          (Node.mk n.segment n.typeOf (alRemove s n.children) n.paramName n.paramChild
            n.wildName n.wildChild n.value n.fullPath, res.2)
        else
          (Node.mk n.segment n.typeOf (alSet s res.1 n.children) n.paramName n.paramChild
            n.wildName n.wildChild n.value n.fullPath, res.2)
      | none =>
        match n.paramChild with
        | some p =>
          let res := deleteAux p rest
          if res.2 && isEmptyNode res.1 then
            (Node.mk n.segment n.typeOf n.children n.paramName none n.wildName n.wildChild
              n.value n.fullPath, res.2)
          else
            (Node.mk n.segment n.typeOf n.children n.paramName (some res.1) n.wildName
              n.wildChild n.value n.fullPath, res.2)
        | none =>
          match n.wildChild with
          | some w =>
            let w' := clearValue w
            let had := w.value.isSome
            if had && isEmptyNode w' then
              (Node.mk n.segment n.typeOf n.children n.paramName n.paramChild n.wildName
                none n.value n.fullPath, had)
            else
              (Node.mk n.segment n.typeOf n.children n.paramName n.paramChild n.wildName
                (some w') n.value n.fullPath, had)
          | none => (n, false)

/-- Model of `RouteTree.Delete`. -/
def RouteTree.Delete {T : Type} (t : Node T) (path : String) : Node T × Bool :=
  if (path == "") || !(chStartsWith path '/') then (t, false)
  else deleteAux t (splitPath path)

/-! ### Structural helpers used by the verification -/
/-- Read-only descent along the branch that `Insert` follows for `segs`:
parameter segments go to the parameter child, wildcard segments to the
wildcard child (which terminates the descent on an accepted key), static
segments into the children map.  Returns the node at the end of the
descent when every node on the way already exists. -/
def getAt {T : Type} (n : Node T) (segs : List String) : Option (Node T) :=
  match segs with
  | [] => some n
  | s :: rest =>
    if s = "" then getAt n rest
    else if chStartsWith s ':' then
      match n.paramChild with
      | some pc => getAt pc rest
      | none => none
    else if chStartsWith s '*' then n.wildChild
    else
      match alLookup n.children s with
      | some c => getAt c rest
      | none => none

/-- Whether the node reached by the `Insert` descent for `segs` (if any)
carries no value, i.e. the key is not yet bound in the tree. -/
def valueFree {T : Type} (t : Node T) (segs : List String) : Bool :=
  match getAt t segs with
  | some m => m.value.isNone
  | none => true

mutual

/-- Well-formedness of a tree as produced by successful API calls: static
child keys are non-empty and carry no parameter or wildcard marker, a
node without value has an empty full path, and no child is value-less
and child-less (no garbage left behind by a failed insert). -/
def nodeInv {T : Type} : Node T → Bool
  | .mk _ _ children _ pc _ wc value fp =>
    (value.isSome || (fp == "")) && childrenInv children && optNodeInv pc && optNodeInv wc

def childrenInv {T : Type} : List (String × Node T) → Bool
  | [] => true
  | (k, c) :: rest =>
    !(k == "") && !(chStartsWith k ':') && !(chStartsWith k '*') &&
      !(isEmptyNode c) && nodeInv c && childrenInv rest

def optNodeInv {T : Type} : Option (Node T) → Bool
  | none => true
  | some c => !(isEmptyNode c) && nodeInv c

end

/-! ### Claim C4: wildcard matching -/
/-- The tree holding exactly the wildcard route `/*rest` (value 1). -/
def wildTree : Node Nat := (RouteTree.Insert (NewRouteTree Nat) "/*rest" 1).1

/-- The tree holding exactly the wildcard route `/a/*w` (value 1). -/
def wildSibTree : Node Nat := (RouteTree.Insert (NewRouteTree Nat) "/a/*w" 1).1

/-- The tree holding `/a` with value 1, the starting state of the C8
counterexample. -/
def preTree : Node Nat := (RouteTree.Insert (NewRouteTree Nat) "/a" 1).1

/-! ## Service pool round robin (src/internal/router/servicepool.go)

`ServiceInstance` carries the fields of the Go struct; selection only
reads `addr`.  The invoker map is abstracted to the predicate
`invokers : String → Bool` that holds exactly when the map has a non-nil
entry for the address (the `ok && invoker != nil` test).  The 64-bit
atomic counter is made explicit: the stored counter value is an `Int`,
`atomic.AddInt64` produces `wrapInt64 (counter + 1)`, and the Go
expression `int((start + int64(i)) % int64(n))` is `Int.tmod`, which
truncates toward zero exactly like the Go `%` operator.  The result type
distinguishes a successful selection, the two error returns, and a
`fault`, which models the runtime panic of a negative slice index. -/
structure ServiceInstance where
  address : String
  port : Int
  addr : String
deriving DecidableEq

structure ServicePool where
  serviceName : String
  invokers : String → Bool
  instances : List ServiceInstance

inductive SelectResult where
  | fault : SelectResult
  | noInstances : SelectResult
  | noInvokers : SelectResult
  | ok (addr : String) : SelectResult
deriving DecidableEq

/-- Two-complement wrap of an integer into the int64 range. -/
def wrapInt64 (x : Int) : Int := (x + 2 ^ 63) % 2 ^ 64 - 2 ^ 63

/-- The `for i := range n` loop of getNextInvoker: `fuel` counts the
remaining iterations, `i` the current offset.  A negative or
out-of-range index faults like the Go slice access would. -/
def selectLoop (instances : List ServiceInstance) (live : String → Bool) (start : Int) :
    Nat → Nat → SelectResult
  | _, 0 => SelectResult.noInvokers
  | i, fuel + 1 =>
    let idx := Int.tmod (start + (i : Int)) (instances.length : Int)
    if idx < 0 then SelectResult.fault
    else
      match instances[idx.toNat]? with
      | none => SelectResult.fault
      | some inst =>
        if live inst.addr then SelectResult.ok inst.addr
        else selectLoop instances live start (i + 1) fuel

/-- Model of `getNextInvoker`: `counter` is the stored counter value
before the atomic increment; the increment yields
`wrapInt64 (counter + 1)` and the loop visits `len(instances)` slots. -/
def getNextInvoker (pool : ServicePool) (counter : Int) : SelectResult :=
  if pool.instances.length = 0 then SelectResult.noInstances
  else
    selectLoop pool.instances pool.invokers (wrapInt64 (counter + 1)) 0
      pool.instances.length

/-- Whether the instance at a given index has a live invoker. -/
def liveAt (instances : List ServiceInstance) (live : String → Bool) (idx : Nat) : Bool :=
  live ((instances.getD idx ⟨"", 0, ""⟩).addr)

/-- The claim-worded specification of the round-robin selector: starting
from pre-increment counter c it visits exactly the indices
(c+1)%n, (c+2)%n, …, (c+n)%n in that order and returns the first
instance whose address has a live invoker. -/
def rrSpecVisit (instances : List ServiceInstance) (live : String → Bool) (c : Nat) :
    SelectResult :=
  if instances.length = 0 then SelectResult.noInstances
  else
    match ((List.range instances.length).map
        (fun i => (c + 1 + i) % instances.length)).find?
        (liveAt instances live) with
    | some idx => SelectResult.ok ((instances.getD idx ⟨"", 0, ""⟩).addr)
    | none => SelectResult.noInvokers

/-! ## Route registry (src/internal/router/router.go)

`Route` carries the value fields of the Go struct; the protobuf method
descriptor is omitted (it is never read by the registry logic).  The
registry state mirrors `HTTPRouter`: the route tree, the per-service
route index, the global path index (a set modelled as a duplicate-free
list), and the pool map.  `RegisterService` is modelled by its
route-registration part: the normalized path keys and route values
extracted from the first descriptors are taken as input, and the
invoker-construction side effects are reduced to creating the pool
entry.  `UnRegisterService` follows the Go code line by line. -/
structure HTTPRule where
  method : String
  path : String
  body : String
deriving DecidableEq

structure Route where
  serviceName : String
  methodName : String
  fullMethod : String
  httpRule : HTTPRule
deriving DecidableEq

structure RouterState where
  routerTree : Node Route
  servicePools : List (String × ServicePool)
  routeIndex : List (String × List String)
  pathIndex : List String

/-- Model of `strings.TrimSpace`. -/
def strTrimSpace (s : String) : String :=
  String.mk ((s.data.dropWhile Char.isWhitespace).reverse.dropWhile
    Char.isWhitespace).reverse

/-- Removal of one element from the set-as-list model of `pathIndex`
(the Go `delete(r.pathIndex, pathKey)`). -/
def listRemove (l : List String) (k : String) : List String :=
  match l with
  | [] => []
  | x :: t => if x = k then t else x :: listRemove t k

/-- Pool creation on first sight of a service (`&ServicePool{...}` with an
empty invoker map and nil instances). -/
def ensurePool (pools : List (String × ServicePool)) (svc : String) :
    List (String × ServicePool) :=
  match alLookup pools svc with
  | some _ => pools
  | none => alSet svc ⟨svc, fun _ => false, []⟩ pools

/-- One iteration of the route-registration loop: skip when the key is
already claimed in `pathIndex`, otherwise insert into the tree and, only
on success, record the key in both indexes. -/
def insertRouteStep (svc : String) (acc : RouterState) (kr : String × Route) :
    RouterState :=
  if acc.pathIndex.contains kr.1 then acc
  else
    let res := RouteTree.Insert acc.routerTree kr.1 kr.2
    match res.2 with
    | some _ => { acc with routerTree := res.1 }
    | none =>
      { acc with
        routerTree := res.1,
        routeIndex := alSet svc ((alLookup acc.routeIndex svc).getD [] ++ [kr.1])
          acc.routeIndex,
        pathIndex := acc.pathIndex ++ [kr.1] }

/-- Model of `RegisterService`, restricted to its registry effects: the
`routes` argument is the list of (normalized key, route) pairs the Go
code derives from the first descriptors, in extraction order. -/
def registerService (st : RouterState) (svc : String) (routes : List (String × Route)) :
    RouterState × Option String :=
  if strTrimSpace svc == "" then (st, some "invalid service info")
  else
    let st₀ := { st with servicePools := ensurePool st.servicePools svc }
    let need :=
      match alLookup st.routeIndex svc with
      | none => true
      | some keys => keys.isEmpty
    if need then (routes.foldl (insertRouteStep svc) st₀, none)
    else (st₀, none)

/-- Model of `UnRegisterService`: delete every indexed key of the service
from the tree and the path index, then drop the route-index entry and
the pool. -/
def unregisterService (st : RouterState) (svc : String) : RouterState × Option String :=
  if strTrimSpace svc == "" then (st, some "invalid service info")
  else
    let keys := (alLookup st.routeIndex svc).getD []
    ({ routerTree := keys.foldl (fun tr k => (RouteTree.Delete tr k).1) st.routerTree,
       servicePools := alRemove svc st.servicePools,
       routeIndex := alRemove svc st.routeIndex,
       pathIndex := keys.foldl listRemove st.pathIndex }, none)

/-- A fresh registry state and two demonstration routes used by the
registry witnesses. -/
def demoState : RouterState := ⟨NewRouteTree Route, [], [], []⟩

def demoRoute1 : Route := ⟨"alpha", "Ping", "pkg.Alpha/Ping", ⟨"GET", "/v1/ping", ""⟩⟩

def demoRoute2 : Route := ⟨"beta", "Ping", "pkg.Beta/Ping", ⟨"GET", "/v1/ping", ""⟩⟩

/-! ## Discovery watcher (src/internal/discovery/watcher.go)

`ServiceMetadata` keeps the JSON-visible fields; the raw descriptor
bytes and their parsed form are not read by the event logic and are
omitted.  `handleMetadataEvent` receives the service name already
extracted from the store key (an empty name models a key outside the
watched space) and, for a Put, the result of
`parseServiceMetadata` (`none` models a payload that fails to parse). -/
structure ServiceMetadata where
  serviceName : String
  version : String
  metadata : List (String × String)
deriving DecidableEq

structure ServiceInfo where
  serviceMetadata : ServiceMetadata
  instances : List ServiceInstance
deriving DecidableEq

inductive EventType where
  | EventAdd : EventType
  | EventDelete : EventType
  | EventUpdate : EventType
deriving DecidableEq

structure ServiceEvent where
  type : EventType
  service : ServiceInfo
deriving DecidableEq

inductive KVEventType where
  | put : KVEventType
  | delete : KVEventType
deriving DecidableEq

structure WatcherState where
  metadataMap : List (String × ServiceMetadata)
  instancesMap : List (String × List ServiceInstance)
  initialLoading : Bool
deriving DecidableEq

/-- Model of `Watcher.handleMetadataEvent`: mutate the metadata mirror
and return the events sent on the channel. -/
def handleMetadataEvent (w : WatcherState) (ev : KVEventType) (serviceName : String)
    (parsed : Option ServiceMetadata) : WatcherState × List ServiceEvent :=
  if serviceName == "" then (w, [])
  else
    match ev with
    | KVEventType.put =>
      match parsed with
      | none => (w, [])
      | some metadata =>
        let w' := { w with metadataMap := alSet serviceName metadata w.metadataMap }
        let instances := (alLookup w.instancesMap serviceName).getD []
        if w.initialLoading then (w', [])
        else (w', [⟨EventType.EventUpdate, ⟨metadata, instances⟩⟩])
    | KVEventType.delete =>
      match alLookup w.metadataMap serviceName with
      | none => (w, [])
      | some metadata =>
        let w' := { w with metadataMap := alRemove serviceName w.metadataMap }
        let instances := (alLookup w.instancesMap serviceName).getD []
        if instances.length = 0 then
          (w', [⟨EventType.EventDelete, ⟨metadata, instances⟩⟩])
        else (w', [])

/-! ## Theorems -/

theorem alLookup_alSet {α : Type} (l : List (String × α)) (k k' : String) (v : α) :
    alLookup (alSet k v l) k' = if k' = k then some v else alLookup l k' := by
  induction l with
  | nil => simp [alSet, alLookup]
  | cons hd t ih =>
    obtain ⟨k₀, v₀⟩ := hd
    by_cases h₀ : k₀ = k
    · subst h₀
      simp only [alSet, if_pos rfl, alLookup]
      by_cases h' : k' = k₀ <;> simp [h']
    · simp only [alSet, if_neg h₀, alLookup]
      by_cases h' : k' = k₀
      · subst h'
        have : ¬ k' = k := fun hk => h₀ (hk ▸ rfl)
        simp [this]
      · simp [h', ih]

theorem alLookup_nil {α : Type} (k : String) : alLookup ([] : List (String × α)) k = none := rfl

theorem alSet_absent {α : Type} (l : List (String × α)) (k : String) (v : α)
    (h : alLookup l k = none) : alSet k v l = l ++ [(k, v)] := by
  induction l with
  | nil => rfl
  | cons hd t ih =>
    obtain ⟨k₀, v₀⟩ := hd
    simp only [alLookup] at h
    by_cases h₀ : k = k₀
    · simp [h₀] at h
    · have h₀' : ¬ k₀ = k := fun hk => h₀ (hk ▸ rfl)
      simp only [alSet, if_neg h₀', List.cons_append]
      rw [ih (by simpa [h₀] using h)]

theorem alRemove_append_absent {α : Type} (l : List (String × α)) (k : String) (v : α)
    (h : alLookup l k = none) : alRemove k (l ++ [(k, v)]) = l := by
  induction l with
  | nil => simp [alRemove]
  | cons hd t ih =>
    obtain ⟨k₀, v₀⟩ := hd
    simp only [alLookup] at h
    by_cases h₀ : k = k₀
    · simp [h₀] at h
    · have h₀' : ¬ k₀ = k := fun hk => h₀ (hk ▸ rfl)
      simp only [List.cons_append, alRemove, if_neg h₀', List.append_eq]
      rw [ih (by simpa [h₀] using h)]

theorem alRemove_absent {α : Type} (l : List (String × α)) (k : String)
    (h : alLookup l k = none) : alRemove k l = l := by
  induction l with
  | nil => rfl
  | cons hd t ih =>
    obtain ⟨k₀, v₀⟩ := hd
    simp only [alLookup] at h
    by_cases h₀ : k = k₀
    · simp [h₀] at h
    · have h₀' : ¬ k₀ = k := fun hk => h₀ (hk ▸ rfl)
      simp only [alRemove, if_neg h₀']
      rw [ih (by simpa [h₀] using h)]

theorem alSet_same {α : Type} (l : List (String × α)) (k : String) (v : α)
    (h : alLookup l k = some v) : alSet k v l = l := by
  induction l with
  | nil => simp [alLookup] at h
  | cons hd t ih =>
    obtain ⟨k₀, v₀⟩ := hd
    simp only [alLookup] at h
    by_cases h₀ : k = k₀
    · subst h₀
      rw [if_pos rfl] at h
      obtain rfl : v₀ = v := by simpa using h
      simp [alSet]
    · have h₀' : ¬ k₀ = k := fun hk => h₀ (hk ▸ rfl)
      simp only [alSet, if_neg h₀']
      rw [ih (by simpa [h₀] using h)]

theorem alSet_alSet {α : Type} (l : List (String × α)) (k : String) (v v' : α) :
    alSet k v (alSet k v' l) = alSet k v l := by
  induction l with
  | nil => simp [alSet]
  | cons hd t ih =>
    obtain ⟨k₀, v₀⟩ := hd
    by_cases h₀ : k₀ = k
    · simp [alSet, h₀]
    · simp [alSet, h₀, ih]

theorem alLookup_foldl_alSet {β : Type} (f : β → Json) (l : List (String × β))
    (m : List (String × Json)) (k : String) :
    alLookup (l.foldl (fun acc kv => alSet kv.1 (f kv.2) acc) m) k =
      optOr ((lastValue l k).map f) (alLookup m k) := by
  induction l generalizing m with
  | nil => simp [lastValue, optOr]
  | cons hd t ih =>
    simp only [List.foldl_cons]
    rw [ih]
    rcases hfind : t.reverse.find? (fun kv => kv.1 == k) with - | kv
    · rw [alLookup_alSet]
      have hlast : lastValue (hd :: t) k =
          if (hd.1 == k) = true then some hd.2 else none := by
        simp only [lastValue, List.reverse_cons, List.find?_append, hfind,
          Option.none_orElse, List.find?]
        cases hbk : (hd.1 == k) <;> simp
      rw [hlast]
      simp only [lastValue, hfind, Option.map_none]
      by_cases hk : k = hd.1
      · have hbeq : (hd.1 == k) = true := beq_iff_eq.mpr (hk ▸ rfl)
        simp [hk, hbeq, optOr]
      · have hbeq : (hd.1 == k) = false :=
          beq_eq_false_iff_ne.mpr (fun h => hk (h ▸ rfl))
        simp [hk, hbeq, optOr]
    · have hlast : lastValue (hd :: t) k = some kv.2 := by
        simp [lastValue, List.reverse_cons, List.find?_append, hfind]
      have hlast' : lastValue t k = some kv.2 := by
        simp [lastValue, hfind]
      rw [hlast, hlast']
      simp [optOr]

/-- Claim C1: BuildRequestJSON composes the gRPC payload as the rules
dictate.  Path parameters are copied as top-level string values and query
parameters as string or string-array values (clause f); a GET or DELETE
method skips the body entirely (clause a); an empty body contributes
nothing for any method (clause b); a non-empty body with body field "*"
is parsed as an object and merged with body keys overriding path and
query keys (clause c); a named body field nests the body under that key
(clause d); an empty body field ignores the body (clause e); and the
literal example of the specification holds (clause g). -/
theorem buildRequestJSON_follows_spec :
    (∀ pp q body bf, BuildRequestJSON "GET" pp q body bf = Except.ok (requestBase pp q)) ∧
    (∀ pp q body bf, BuildRequestJSON "DELETE" pp q body bf = Except.ok (requestBase pp q)) ∧
    (∀ m pp q bf, BuildRequestJSON m pp q none bf = Except.ok (requestBase pp q)) ∧
    (∀ m pp q fs, m ≠ "GET" → m ≠ "DELETE" →
      BuildRequestJSON m pp q (some (Json.obj fs)) "*" =
        Except.ok (fs.foldl (fun acc kv => alSet kv.1 kv.2 acc) (requestBase pp q)) ∧
      ∀ k, alLookup (fs.foldl (fun acc kv => alSet kv.1 kv.2 acc) (requestBase pp q)) k =
        optOr (lastValue fs k) (alLookup (requestBase pp q) k)) ∧
    (∀ m pp q bf b, m ≠ "GET" → m ≠ "DELETE" → bf ≠ "*" → bf ≠ "" →
      BuildRequestJSON m pp q (some b) bf = Except.ok (alSet bf b (requestBase pp q))) ∧
    (∀ m pp q b, m ≠ "GET" → m ≠ "DELETE" →
      BuildRequestJSON m pp q (some b) "" = Except.ok (requestBase pp q)) ∧
    (∀ pp q k, alLookup (requestBase pp q) k =
      optOr ((lastValue q k).map queryValue) ((lastValue pp k).map Json.str)) ∧
    BuildRequestJSON "POST" [] [("source", ["web"])]
        (some (Json.obj [("name", Json.str "Tom"), ("age", Json.num 18)])) "*" =
      Except.ok [("source", Json.str "web"), ("name", Json.str "Tom"), ("age", Json.num 18)] := by
  refine ⟨fun pp q body bf => rfl, fun pp q body bf => rfl, ?_, ?_, ?_, ?_, ?_, rfl⟩
  · intro m pp q bf
    unfold BuildRequestJSON
    cases h : (m != "GET" && m != "DELETE") <;> simp [h]
  · intro m pp q fs hm hm'
    have hcond : (m != "GET" && m != "DELETE") = true := by
      simp [bne_iff_ne, hm, hm']
    constructor
    · unfold BuildRequestJSON
      simp [hcond]
    · intro k
      have h := alLookup_foldl_alSet (fun v => v) fs (requestBase pp q) k
      simpa [Option.map_id] using h
  · intro m pp q bf b hm hm' hbf hbf'
    have hcond : (m != "GET" && m != "DELETE") = true := by
      simp [bne_iff_ne, hm, hm']
    have h₁ : (bf == "*") = false := beq_eq_false_iff_ne.mpr hbf
    have h₂ : (bf != "") = true := bne_iff_ne.mpr hbf'
    unfold BuildRequestJSON
    simp [hcond, h₁, h₂]
  · intro m pp q b hm hm'
    have hcond : (m != "GET" && m != "DELETE") = true := by
      simp [bne_iff_ne, hm, hm']
    unfold BuildRequestJSON
    simp [hcond]
  · intro pp q k
    unfold requestBase
    rw [alLookup_foldl_alSet queryValue q _ k, alLookup_foldl_alSet Json.str pp [] k,
      alLookup_nil]
    rcases (lastValue pp k).map Json.str with - | w <;>
      rcases (lastValue q k).map queryValue with - | v <;> rfl

/-- Witness for claim C1: the theorem applied at the literal merge example
of the specification, with every hypothesis discharged concretely. -/
theorem buildRequestJSON_follows_spec_witness :
    ("POST" : String) ≠ "GET" ∧ ("POST" : String) ≠ "DELETE" ∧
    BuildRequestJSON "POST" [("id", "7")] [("source", ["web"])]
        (some (Json.obj [("name", Json.str "Tom"), ("age", Json.num 18)])) "*" =
      Except.ok [("id", Json.str "7"), ("source", Json.str "web"),
        ("name", Json.str "Tom"), ("age", Json.num 18)] := by
  refine ⟨by decide, by decide, ?_⟩
  have h := (buildRequestJSON_follows_spec.2.2.2.1 "POST" [("id", "7")] [("source", ["web"])]
    [("name", Json.str "Tom"), ("age", Json.num 18)] (by decide) (by decide)).1
  exact h.trans rfl

/-- Claim C2: the pipeline error mapping realises exactly the
specification's gRPC-to-HTTP table and envelope: a status-carrying error
is mapped through the table with envelope code equal to the numeric gRPC
status and msg equal to the status message, and a status-less error maps
to HTTP 500 with envelope code -1 and msg equal to the error text. -/
theorem mapErrorToHTTP_follows_spec :
    (∀ code msg, mapErrorToHTTP (GoError.grpcStatus code msg) =
      (specGRPCTable code, ⟨(code : Int), msg, Json.null⟩)) ∧
    (∀ msg, mapErrorToHTTP (GoError.plain msg) = (500, ⟨-1, msg, Json.null⟩)) := by
  constructor
  · intro code msg
    have htable : mapGRPCCodeToHTTP code = specGRPCTable code := by
      by_cases h : code < 17
      · interval_cases code <;> rfl
      · unfold mapGRPCCodeToHTTP specGRPCTable
        rw [if_neg (show ¬ code = 0 from by omega),
          if_neg (show ¬ code = 1 from by omega),
          if_neg (show ¬ code = 2 from by omega),
          if_neg (show ¬ code = 3 from by omega),
          if_neg (show ¬ code = 4 from by omega),
          if_neg (show ¬ code = 5 from by omega),
          if_neg (show ¬ code = 6 from by omega),
          if_neg (show ¬ code = 7 from by omega),
          if_neg (show ¬ code = 8 from by omega),
          if_neg (show ¬ code = 9 from by omega),
          if_neg (show ¬ code = 10 from by omega),
          if_neg (show ¬ code = 11 from by omega),
          if_neg (show ¬ code = 12 from by omega),
          if_neg (show ¬ code = 13 from by omega),
          if_neg (show ¬ code = 14 from by omega),
          if_neg (show ¬ code = 15 from by omega),
          if_neg (show ¬ code = 16 from by omega),
          if_neg (show ¬ code = 0 from by omega),
          if_neg (show ¬ (code = 1 ∨ code = 4) from by omega),
          if_neg (show ¬ (code = 3 ∨ code = 9 ∨ code = 11) from by omega),
          if_neg (show ¬ code = 5 from by omega),
          if_neg (show ¬ (code = 6 ∨ code = 10) from by omega),
          if_neg (show ¬ code = 7 from by omega),
          if_neg (show ¬ code = 16 from by omega),
          if_neg (show ¬ code = 8 from by omega),
          if_neg (show ¬ code = 12 from by omega),
          if_neg (show ¬ (code = 2 ∨ code = 13 ∨ code = 15) from by omega),
          if_neg (show ¬ code = 14 from by omega)]
    simp [mapErrorToHTTP, htable]
  · intro msg
    rfl

theorem wildTree_eq : wildTree = Node.mk "" NodeType.Static [] "" none ""
    (some (Node.mk "*rest" NodeType.Wildcard [] "" none "rest" none (some 1) "/*rest"))
    none "" := by
  rfl

theorem lookupAux_wildTree (segs : List String) (params : List (String × String)) :
    lookupAux wildTree segs params =
      match segs.dropWhile (fun s => s = "") with
      | [] => none
      | s :: rest => some (1, alSet "rest" (strJoin "/" (s :: rest)) params) := by
  induction segs with
  | nil => rfl
  | cons s rest ih =>
    by_cases hs : s = ""
    · subst hs
      have hstep : lookupAux wildTree ("" :: rest) params = lookupAux wildTree rest params := by
        simp [lookupAux]
      rw [hstep, ih]
      simp [List.dropWhile]
    · rw [wildTree_eq]
      simp only [lookupAux, if_neg hs, Node.children, Node.paramChild, Node.wildChild,
        Node.value, alLookup]
      have hdrop : (s :: rest).dropWhile (fun s => s = "") = s :: rest := by
        simp [List.dropWhile, hs]
      rw [hdrop]
      simp [Node.wildName]

/-- Counterexample to claim C4: in the tree containing the wildcard route
`/*rest`, Lookup of the key `/` does NOT succeed; it returns the
not-found result, because the lookup loop skips empty segments, ends at
the value-less root and never reaches the wildcard child.  The claim says
this lookup succeeds capturing rest = "". -/
theorem lookup_wildcard_root_fails : RouteTree.Lookup wildTree "/" = none := by decide

/-- Amended claim C4: in the tree containing the wildcard route `/*rest`,
Lookup of `/a` succeeds capturing rest = "a" and Lookup of `/a/b/c`
succeeds capturing rest = "a/b/c"; in general the wildcard matches a
NON-EMPTY remainder of the path (one or more segments) and captures the
joined remainder under its name, while the key `/`, whose remainder is
empty, is not matched. -/
theorem lookup_wildcard_amended :
    RouteTree.Lookup wildTree "/" = none ∧
    RouteTree.Lookup wildTree "/a" = some (1, [("rest", "a")]) ∧
    RouteTree.Lookup wildTree "/a/b/c" = some (1, [("rest", "a/b/c")]) ∧
    (∀ p : String, p ≠ "" → chStartsWith p '/' = true →
      RouteTree.Lookup wildTree p =
        match (splitPath p).dropWhile (fun s => s = "") with
        | [] => none
        | s :: rest => some (1, [("rest", strJoin "/" (s :: rest))])) := by
  refine ⟨by decide, by decide, by decide, ?_⟩
  intro p hp hsl
  have hbeq : (p == "") = false := beq_eq_false_iff_ne.mpr hp
  unfold RouteTree.Lookup
  rw [hbeq, hsl]
  simp only [Bool.not_true, Bool.or_false, if_false]
  have h := lookupAux_wildTree (splitPath p) []
  rcases hd : (splitPath p).dropWhile (fun s => s = "") with - | ⟨s, rest⟩ <;>
    rw [hd] at h <;> simpa using h

/-- Witness for the amended claim C4, applied at the concrete key `/x/y`. -/
theorem lookup_wildcard_amended_witness :
    ("/x/y" : String) ≠ "" ∧ chStartsWith "/x/y" '/' = true ∧
    RouteTree.Lookup wildTree "/x/y" = some (1, [("rest", "x/y")]) := by
  refine ⟨by decide, by decide, ?_⟩
  have h := lookup_wildcard_amended.2.2.2 "/x/y" (by decide) (by decide)
  exact h.trans (by decide)

/-! ### Claim C5: Insert conflict detection -/
theorem alLookup_alSet_self {α : Type} (l : List (String × α)) (k : String) (v : α) :
    alLookup (alSet k v l) k = some v := by
  rw [alLookup_alSet]
  simp

/-- Insert never changes the identity fields of the node it descends
into; in particular the parameter name of an existing parameter child
survives an insertion below it. -/
theorem insertAux_paramName {T : Type} (segs : List String) (n : Node T) (path : String)
    (v : T) : (insertAux n segs path v).1.paramName = n.paramName := by
  induction segs generalizing n with
  | nil =>
    obtain ⟨seg, ty, children, pn, pc, wn, wc, value, fp⟩ := n
    rfl
  | cons s rest ih =>
    obtain ⟨seg, ty, children, pn, pc, wn, wc, value, fp⟩ := n
    by_cases hs : s = ""
    · subst hs
      simpa [insertAux] using ih (Node.mk seg ty children pn pc wn wc value fp)
    · simp only [insertAux, if_neg hs]
      repeat' split
      all_goals rfl

/-! ### One-step evaluation lemmas for the Insert descent -/
theorem insertAux_step_empty {T : Type} (n : Node T) (rest : List String) (path : String)
    (v : T) : insertAux n ("" :: rest) path v = insertAux n rest path v := by
  simp [insertAux]

theorem insertAux_step_param_fresh {T : Type} (n : Node T) (s : String) (rest : List String)
    (path : String) (v : T) (hs : s ≠ "") (hc : chStartsWith s ':' = true)
    (hn : strDrop1 s ≠ "") (hw : n.wildChild = none) (hp : n.paramChild = none) :
    insertAux n (s :: rest) path v =
      (Node.mk n.segment n.typeOf n.children n.paramName
        (some (insertAux (Node.mk s NodeType.Param [] (strDrop1 s) none "" none none "")
          rest path v).1) n.wildName n.wildChild n.value n.fullPath,
       (insertAux (Node.mk s NodeType.Param [] (strDrop1 s) none "" none none "")
         rest path v).2) := by
  simp [insertAux, hs, hc, hn, hw, hp]

theorem insertAux_step_param_reuse {T : Type} (n p : Node T) (s : String)
    (rest : List String) (path : String) (v : T) (hs : s ≠ "")
    (hc : chStartsWith s ':' = true) (hn : strDrop1 s ≠ "") (hw : n.wildChild = none)
    (hp : n.paramChild = some p) (hpn : p.paramName = strDrop1 s) :
    insertAux n (s :: rest) path v =
      (Node.mk n.segment n.typeOf n.children n.paramName
        (some (insertAux p rest path v).1) n.wildName n.wildChild n.value n.fullPath,
       (insertAux p rest path v).2) := by
  simp [insertAux, hs, hc, hn, hw, hp, hpn]

theorem insertAux_step_wild_fresh {T : Type} (n : Node T) (s : String) (rest : List String)
    (path : String) (v : T) (hs : s ≠ "") (hc : chStartsWith s ':' = false)
    (hstar : chStartsWith s '*' = true) (hn : strDrop1 s ≠ "") (hrest : rest = [])
    (hch : n.children = []) (hp : n.paramChild = none) (hw : n.wildChild = none) :
    insertAux n (s :: rest) path v =
      (Node.mk n.segment n.typeOf n.children n.paramName n.paramChild n.wildName
        (some (insertAux (Node.mk s NodeType.Wildcard [] "" none (strDrop1 s) none none "")
          rest path v).1) n.value n.fullPath,
       (insertAux (Node.mk s NodeType.Wildcard [] "" none (strDrop1 s) none none "")
         rest path v).2) := by
  subst hrest
  simp [insertAux, hs, hc, hstar, hn, hch, hp, hw, List.isEmpty]

theorem insertAux_step_wild_reuse {T : Type} (n w : Node T) (s : String)
    (rest : List String) (path : String) (v : T) (hs : s ≠ "")
    (hc : chStartsWith s ':' = false) (hstar : chStartsWith s '*' = true)
    (hn : strDrop1 s ≠ "") (hrest : rest = []) (hch : n.children = [])
    (hp : n.paramChild = none) (hw : n.wildChild = some w) :
    insertAux n (s :: rest) path v =
      (Node.mk n.segment n.typeOf n.children n.paramName n.paramChild n.wildName
        (some (insertAux w rest path v).1) n.value n.fullPath,
       (insertAux w rest path v).2) := by
  subst hrest
  simp [insertAux, hs, hc, hstar, hn, hch, hp, hw, List.isEmpty]

theorem insertAux_step_static_fresh {T : Type} (n : Node T) (s : String)
    (rest : List String) (path : String) (v : T) (hs : s ≠ "")
    (hc : chStartsWith s ':' = false) (hstar : chStartsWith s '*' = false)
    (hlook : alLookup n.children s = none) :
    insertAux n (s :: rest) path v =
      (Node.mk n.segment n.typeOf
        (alSet s (insertAux (Node.mk s NodeType.Static [] "" none "" none none "")
          rest path v).1 n.children) n.paramName n.paramChild n.wildName n.wildChild
        n.value n.fullPath,
       (insertAux (Node.mk s NodeType.Static [] "" none "" none none "")
         rest path v).2) := by
  simp [insertAux, hs, hc, hstar, hlook]

theorem insertAux_step_static_reuse {T : Type} (n c : Node T) (s : String)
    (rest : List String) (path : String) (v : T) (hs : s ≠ "")
    (hc : chStartsWith s ':' = false) (hstar : chStartsWith s '*' = false)
    (hlook : alLookup n.children s = some c) :
    insertAux n (s :: rest) path v =
      (Node.mk n.segment n.typeOf (alSet s (insertAux c rest path v).1 n.children)
        n.paramName n.paramChild n.wildName n.wildChild n.value n.fullPath,
       (insertAux c rest path v).2) := by
  simp [insertAux, hs, hc, hstar, hlook]

/-- A successful insertion followed by an insertion of the same key
rebuilds exactly the tree that a direct insertion of the second value
would produce: the overwrite is structurally idempotent and the latter
value wins. -/
theorem insertAux_idem {T : Type} (segs : List String) (n n₁ : Node T) (path : String)
    (v₁ v₂ : T) (h : insertAux n segs path v₁ = (n₁, none)) :
    insertAux n₁ segs path v₂ = insertAux n segs path v₂ := by
  induction segs generalizing n n₁ with
  | nil =>
    have hn₁ : n₁ = Node.mk n.segment n.typeOf n.children n.paramName n.paramChild
        n.wildName n.wildChild (some v₁) path := (congrArg Prod.fst h).symm
    subst hn₁
    rfl
  | cons s rest ih =>
    by_cases hs : s = ""
    · subst hs
      rw [insertAux_step_empty] at h
      rw [insertAux_step_empty, insertAux_step_empty]
      exact ih n n₁ h
    · by_cases hcolon : chStartsWith s ':' = true
      · by_cases hname : strDrop1 s = ""
        · simp [insertAux, hs, hcolon, hname] at h
        · by_cases hw : n.wildChild = none
          case neg =>
            have hws : n.wildChild.isSome = true := by
              rcases hx : n.wildChild with - | w
              · exact absurd hx hw
              · rfl
            simp [insertAux, hs, hcolon, hname, hws] at h
          case pos =>
            rcases hp : n.paramChild with - | p
            · rw [insertAux_step_param_fresh n s rest path v₁ hs hcolon hname hw hp] at h
              have herr : (insertAux (Node.mk s NodeType.Param [] (strDrop1 s) none ""
                  none none "") rest path v₁).2 = none := congrArg Prod.snd h
              have hn₁ : n₁ = Node.mk n.segment n.typeOf n.children n.paramName
                  (some (insertAux (Node.mk s NodeType.Param [] (strDrop1 s) none ""
                    none none "") rest path v₁).1) n.wildName n.wildChild n.value
                  n.fullPath := (congrArg Prod.fst h).symm
              have hrec := ih (Node.mk s NodeType.Param [] (strDrop1 s) none "" none
                none "") (insertAux (Node.mk s NodeType.Param [] (strDrop1 s) none ""
                none none "") rest path v₁).1 (by rw [← herr])
              have hw₁ : n₁.wildChild = none := by rw [hn₁]; exact hw
              have hp₁ : n₁.paramChild = some (insertAux (Node.mk s NodeType.Param []
                  (strDrop1 s) none "" none none "") rest path v₁).1 := by rw [hn₁]; rfl
              have hpn₁ : (insertAux (Node.mk s NodeType.Param [] (strDrop1 s) none ""
                  none none "") rest path v₁).1.paramName = strDrop1 s :=
                insertAux_paramName rest (Node.mk s NodeType.Param [] (strDrop1 s) none
                  "" none none "") path v₁
              rw [insertAux_step_param_reuse n₁ _ s rest path v₂ hs hcolon hname hw₁ hp₁
                hpn₁, insertAux_step_param_fresh n s rest path v₂ hs hcolon hname hw hp,
                hrec]
              simp [hn₁, Node.segment, Node.typeOf, Node.children, Node.paramName, Node.paramChild, Node.wildName, Node.wildChild, Node.value, Node.fullPath]
            · by_cases hpn : p.paramName = strDrop1 s
              case neg =>
                simp [insertAux, hs, hcolon, hname, hw, hp, hpn] at h
              case pos =>
                rw [insertAux_step_param_reuse n p s rest path v₁ hs hcolon hname hw hp
                  hpn] at h
                have herr : (insertAux p rest path v₁).2 = none := congrArg Prod.snd h
                have hn₁ : n₁ = Node.mk n.segment n.typeOf n.children n.paramName
                    (some (insertAux p rest path v₁).1) n.wildName n.wildChild n.value
                    n.fullPath := (congrArg Prod.fst h).symm
                have hrec := ih p (insertAux p rest path v₁).1 (by rw [← herr])
                have hw₁ : n₁.wildChild = none := by rw [hn₁]; exact hw
                have hp₁ : n₁.paramChild = some (insertAux p rest path v₁).1 := by
                  rw [hn₁]; rfl
                have hpn₁ : (insertAux p rest path v₁).1.paramName = strDrop1 s :=
                  (insertAux_paramName rest p path v₁).trans hpn
                rw [insertAux_step_param_reuse n₁ _ s rest path v₂ hs hcolon hname hw₁
                  hp₁ hpn₁, insertAux_step_param_reuse n p s rest path v₂ hs hcolon
                  hname hw hp hpn, hrec]
                simp [hn₁, Node.segment, Node.typeOf, Node.children, Node.paramName, Node.paramChild, Node.wildName, Node.wildChild, Node.value, Node.fullPath]
      · by_cases hstar : chStartsWith s '*' = true
        · by_cases hname : strDrop1 s = ""
          · simp [insertAux, hs, hcolon, hstar, hname] at h
          · by_cases hrest : rest = []
            case neg =>
              simp [insertAux, hs, hcolon, hstar, hname, hrest] at h
            case pos =>
              subst hrest
              have hcolon' : chStartsWith s ':' = false := by simpa using hcolon
              rcases hch : n.children with - | ⟨a, l⟩
              case cons =>
                simp [insertAux, hs, hcolon, hstar, hname, hch, List.isEmpty] at h
              case nil =>
                rcases hp : n.paramChild with - | p
                case some =>
                  simp [insertAux, hs, hcolon, hstar, hname, hch, hp, List.isEmpty] at h
                case none =>
                  rcases hw : n.wildChild with - | w
                  · rw [insertAux_step_wild_fresh n s [] path v₁ hs hcolon' hstar hname rfl
                      hch hp hw] at h
                    have herr : (insertAux (Node.mk s NodeType.Wildcard [] "" none
                        (strDrop1 s) none none "") [] path v₁).2 = none :=
                      congrArg Prod.snd h
                    have hn₁ : n₁ = Node.mk n.segment n.typeOf n.children n.paramName
                        n.paramChild n.wildName (some (insertAux (Node.mk s
                        NodeType.Wildcard [] "" none (strDrop1 s) none none "") [] path
                        v₁).1) n.value n.fullPath := (congrArg Prod.fst h).symm
                    have hrec := ih (Node.mk s NodeType.Wildcard [] "" none (strDrop1 s)
                      none none "") (insertAux (Node.mk s NodeType.Wildcard [] "" none
                      (strDrop1 s) none none "") [] path v₁).1 (by rw [← herr])
                    have hch₁ : n₁.children = [] := by rw [hn₁]; exact hch
                    have hp₁ : n₁.paramChild = none := by rw [hn₁]; exact hp
                    have hw₁ : n₁.wildChild = some (insertAux (Node.mk s
                        NodeType.Wildcard [] "" none (strDrop1 s) none none "") [] path
                        v₁).1 := by rw [hn₁]; rfl
                    rw [insertAux_step_wild_reuse n₁ _ s [] path v₂ hs hcolon' hstar hname
                      rfl hch₁ hp₁ hw₁, insertAux_step_wild_fresh n s [] path v₂ hs
                      hcolon' hstar hname rfl hch hp hw, hrec]
                    simp [hn₁, Node.segment, Node.typeOf, Node.children, Node.paramName, Node.paramChild, Node.wildName, Node.wildChild, Node.value, Node.fullPath]
                  · rw [insertAux_step_wild_reuse n w s [] path v₁ hs hcolon' hstar hname
                      rfl hch hp hw] at h
                    have herr : (insertAux w [] path v₁).2 = none := congrArg Prod.snd h
                    have hn₁ : n₁ = Node.mk n.segment n.typeOf n.children n.paramName
                        n.paramChild n.wildName (some (insertAux w [] path v₁).1) n.value
                        n.fullPath := (congrArg Prod.fst h).symm
                    have hrec := ih w (insertAux w [] path v₁).1 (by rw [← herr])
                    have hch₁ : n₁.children = [] := by rw [hn₁]; exact hch
                    have hp₁ : n₁.paramChild = none := by rw [hn₁]; exact hp
                    have hw₁ : n₁.wildChild = some (insertAux w [] path v₁).1 := by
                      rw [hn₁]; rfl
                    rw [insertAux_step_wild_reuse n₁ _ s [] path v₂ hs hcolon' hstar hname
                      rfl hch₁ hp₁ hw₁, insertAux_step_wild_reuse n w s [] path v₂ hs
                      hcolon' hstar hname rfl hch hp hw, hrec]
                    simp [hn₁, Node.segment, Node.typeOf, Node.children, Node.paramName, Node.paramChild, Node.wildName, Node.wildChild, Node.value, Node.fullPath]
        · have hcolon' : chStartsWith s ':' = false := by simpa using hcolon
          have hstar' : chStartsWith s '*' = false := by simpa using hstar
          rcases hlook : alLookup n.children s with - | c
          · rw [insertAux_step_static_fresh n s rest path v₁ hs hcolon' hstar' hlook] at h
            have herr : (insertAux (Node.mk s NodeType.Static [] "" none "" none none "")
                rest path v₁).2 = none := congrArg Prod.snd h
            have hn₁ : n₁ = Node.mk n.segment n.typeOf (alSet s (insertAux (Node.mk s
                NodeType.Static [] "" none "" none none "") rest path v₁).1 n.children)
                n.paramName n.paramChild n.wildName n.wildChild n.value n.fullPath :=
              (congrArg Prod.fst h).symm
            have hrec := ih (Node.mk s NodeType.Static [] "" none "" none none "")
              (insertAux (Node.mk s NodeType.Static [] "" none "" none none "") rest path
              v₁).1 (by rw [← herr])
            have hlook₁ : alLookup n₁.children s = some (insertAux (Node.mk s
                NodeType.Static [] "" none "" none none "") rest path v₁).1 := by
              rw [hn₁]
              exact alLookup_alSet_self n.children s _
            rw [insertAux_step_static_reuse n₁ _ s rest path v₂ hs hcolon' hstar' hlook₁,
              insertAux_step_static_fresh n s rest path v₂ hs hcolon' hstar' hlook, hrec]
            simp [hn₁, Node.segment, Node.typeOf, Node.children, Node.paramName, Node.paramChild, Node.wildName, Node.wildChild, Node.value, Node.fullPath, alSet_alSet]
          · rw [insertAux_step_static_reuse n c s rest path v₁ hs hcolon' hstar' hlook] at h
            have herr : (insertAux c rest path v₁).2 = none := congrArg Prod.snd h
            have hn₁ : n₁ = Node.mk n.segment n.typeOf (alSet s (insertAux c rest path
                v₁).1 n.children) n.paramName n.paramChild n.wildName n.wildChild n.value
                n.fullPath := (congrArg Prod.fst h).symm
            have hrec := ih c (insertAux c rest path v₁).1 (by rw [← herr])
            have hlook₁ : alLookup n₁.children s = some (insertAux c rest path v₁).1 := by
              rw [hn₁]
              exact alLookup_alSet_self n.children s _
            rw [insertAux_step_static_reuse n₁ _ s rest path v₂ hs hcolon' hstar' hlook₁,
              insertAux_step_static_reuse n c s rest path v₂ hs hcolon' hstar' hlook, hrec]
            simp [hn₁, Node.segment, Node.typeOf, Node.children, Node.paramName, Node.paramChild, Node.wildName, Node.wildChild, Node.value, Node.fullPath, alSet_alSet]

/-- Counterexample to claim C5: inserting the static key `/a/b` into the
tree that holds `/a/*w` SUCCEEDS (no error), and afterwards the node at
`/a` has both a wildcard child and a static child `b` — the claimed
invariant that no node ever has a wildcard child with a sibling is
violated, because the static branch of Insert performs no conflict
check against an existing wildcard child. -/
theorem insert_static_beside_wildcard_succeeds :
    (RouteTree.Insert wildSibTree "/a/b" 2).2 = none ∧
    ((getAt (RouteTree.Insert wildSibTree "/a/b" 2).1 ["a"]).map
      (fun m => (m.wildChild.isSome, (alLookup m.children "b").isSome))) =
      some (true, true) := by
  constructor
  · decide
  · decide

/-- Amended claim C5: Insert fails on every key that is empty or lacks a
leading slash (clause 1); fails when the parameter or wildcard name is
empty (clauses 2 and 3); fails when a parameter node at the same depth
already uses a different name (clause 4); fails when inserting a
parameter at a node holding a wildcard child (clause 5); fails when
inserting a wildcard at a node that already has static or parameter
children (clause 6); BUT inserting a static segment at a node succeeds
with no conflict check, even when a wildcard child is present, so a
wildcard may acquire static siblings (clause 7); and inserting the same
key twice is an idempotent overwrite where the latter value wins
(clause 8). -/
theorem insert_conflicts_amended :
    (∀ (t : Node Nat) path v, path = "" ∨ chStartsWith path '/' = false →
      RouteTree.Insert t path v = (t, some "path must start with a slash")) ∧
    (∀ (n : Node Nat) rest path v, insertAux n (":" :: rest) path v =
      (n, some "param name cannot be empty")) ∧
    (∀ (n : Node Nat) rest path v, insertAux n ("*" :: rest) path v =
      (n, some "wildcard name cannot be empty")) ∧
    (∀ (n p : Node Nat) s rest path v, s ≠ "" → chStartsWith s ':' = true →
      strDrop1 s ≠ "" → n.wildChild = none → n.paramChild = some p →
      p.paramName ≠ strDrop1 s →
      insertAux n (s :: rest) path v =
        (n, some "conflict: different param names at same level")) ∧
    (∀ (n : Node Nat) s rest path v, s ≠ "" → chStartsWith s ':' = true →
      strDrop1 s ≠ "" → n.wildChild.isSome = true →
      insertAux n (s :: rest) path v =
        (n, some "conflict: wildcard and param at same level")) ∧
    (∀ (n : Node Nat) s path v, s ≠ "" → chStartsWith s ':' = false →
      chStartsWith s '*' = true → strDrop1 s ≠ "" →
      (!n.children.isEmpty || n.paramChild.isSome) = true →
      insertAux n [s] path v =
        (n, some "conflict: wildcard cannot coexist with other children")) ∧
    (∀ (n : Node Nat) s path v, s ≠ "" → chStartsWith s ':' = false →
      chStartsWith s '*' = false →
      (insertAux n [s] path v).2 = none ∧
      (insertAux n [s] path v).1.wildChild = n.wildChild ∧
      (alLookup (insertAux n [s] path v).1.children s).isSome = true) ∧
    (∀ (t t₁ : Node Nat) path v₁ v₂, RouteTree.Insert t path v₁ = (t₁, none) →
      RouteTree.Insert t₁ path v₂ = RouteTree.Insert t path v₂) := by
  refine ⟨?_, fun n rest path v => rfl, fun n rest path v => rfl, ?_, ?_, ?_, ?_, ?_⟩
  · intro t path v h
    rcases h with h | h
    · subst h
      rfl
    · simp [RouteTree.Insert, h]
  · intro n p s rest path v hs hc hn hw hp hpn
    simp [insertAux, hs, hc, hn, hw, hp, hpn]
  · intro n s rest path v hs hc hn hws
    simp [insertAux, hs, hc, hn, hws]
  · intro n s path v hs hc hstar hn hcond
    simp [insertAux, hs, hc, hstar, hn, hcond]
  · intro n s path v hs hc hstar
    rcases hlook : alLookup n.children s with - | c
    · rw [insertAux_step_static_fresh n s [] path v hs hc hstar hlook]
      refine ⟨rfl, rfl, ?_⟩
      rw [show (Node.mk n.segment n.typeOf (alSet s (insertAux (Node.mk s NodeType.Static
        [] "" none "" none none "") [] path v).1 n.children) n.paramName n.paramChild
        n.wildName n.wildChild n.value n.fullPath : Node Nat).children = alSet s
        (insertAux (Node.mk s NodeType.Static [] "" none "" none none "") [] path v).1
        n.children from rfl]
      rw [alLookup_alSet_self]
      rfl
    · rw [insertAux_step_static_reuse n c s [] path v hs hc hstar hlook]
      refine ⟨rfl, rfl, ?_⟩
      rw [show (Node.mk n.segment n.typeOf (alSet s (insertAux c [] path v).1 n.children)
        n.paramName n.paramChild n.wildName n.wildChild n.value n.fullPath :
        Node Nat).children = alSet s (insertAux c [] path v).1 n.children from rfl]
      rw [alLookup_alSet_self]
      rfl
  · intro t t₁ path v₁ v₂ h
    by_cases hvalid : ((path == "") || !(chStartsWith path '/')) = true
    · rw [RouteTree.Insert, if_pos hvalid] at h
      simp at h
    · rw [RouteTree.Insert, if_neg hvalid] at h
      rw [RouteTree.Insert, if_neg hvalid, RouteTree.Insert, if_neg hvalid]
      exact insertAux_idem (splitPath path) t t₁ path v₁ v₂ h

/-- Witness for the amended claim C5: concrete instances of the bad-path
failure, the parameter-name conflict at the root, the wildcard-sibling
acceptance and the idempotent overwrite. -/
theorem insert_conflicts_amended_witness :
    RouteTree.Insert (NewRouteTree Nat) "nope" 1 =
      (NewRouteTree Nat, some "path must start with a slash") ∧
    (RouteTree.Insert wildSibTree "/a/b" 2).2 = none ∧
    RouteTree.Insert (RouteTree.Insert (NewRouteTree Nat) "/x" 1).1 "/x" 2 =
      RouteTree.Insert (NewRouteTree Nat) "/x" 2 := by
  refine ⟨?_, ?_, ?_⟩
  · exact insert_conflicts_amended.1 (NewRouteTree Nat) "nope" 1 (Or.inr (by decide))
  · decide
  · exact insert_conflicts_amended.2.2.2.2.2.2.2 (NewRouteTree Nat)
      (RouteTree.Insert (NewRouteTree Nat) "/x" 1).1 "/x" 1 2 rfl

/-! ### Claim C8: Delete after Insert restores the tree -/
theorem deleteAux_step_empty {T : Type} (n : Node T) (rest : List String) :
    deleteAux n ("" :: rest) = deleteAux n rest := by
  simp [deleteAux]

/-- In a well-formed children map no key starts with a colon, so looking
up a parameter-shaped segment finds nothing. -/
theorem childrenInv_lookup_colon {T : Type} (ch : List (String × Node T)) (s : String)
    (hinv : childrenInv ch = true) (hc : chStartsWith s ':' = true) :
    alLookup ch s = none := by
  induction ch with
  | nil => rfl
  | cons hd t ih =>
    obtain ⟨k, c⟩ := hd
    simp only [childrenInv, Bool.and_eq_true] at hinv
    obtain ⟨⟨⟨⟨⟨hk, hkc⟩, hks⟩, hce⟩, hcn⟩, ht⟩ := hinv
    have hne : ¬ s = k := by
      intro heq
      subst heq
      rw [hc] at hkc
      simp at hkc
    simp only [alLookup, if_neg hne]
    exact ih ht

/-- In a well-formed children map no key starts with a star, so looking
up a wildcard-shaped segment finds nothing. -/
theorem childrenInv_lookup_star {T : Type} (ch : List (String × Node T)) (s : String)
    (hinv : childrenInv ch = true) (hc : chStartsWith s '*' = true) :
    alLookup ch s = none := by
  induction ch with
  | nil => rfl
  | cons hd t ih =>
    obtain ⟨k, c⟩ := hd
    simp only [childrenInv, Bool.and_eq_true] at hinv
    obtain ⟨⟨⟨⟨⟨hk, hkc⟩, hks⟩, hce⟩, hcn⟩, ht⟩ := hinv
    have hne : ¬ s = k := by
      intro heq
      subst heq
      rw [hc] at hks
      simp at hks
    simp only [alLookup, if_neg hne]
    exact ih ht

/-- A child found in a well-formed children map is non-empty and itself
well formed. -/
theorem childrenInv_lookup_some {T : Type} (ch : List (String × Node T)) (s : String)
    (c : Node T) (hinv : childrenInv ch = true) (hlook : alLookup ch s = some c) :
    isEmptyNode c = false ∧ nodeInv c = true := by
  induction ch with
  | nil => simp [alLookup] at hlook
  | cons hd t ih =>
    obtain ⟨k, c₀⟩ := hd
    simp only [childrenInv, Bool.and_eq_true] at hinv
    obtain ⟨⟨⟨⟨⟨hk, hkc⟩, hks⟩, hce⟩, hcn⟩, ht⟩ := hinv
    simp only [alLookup] at hlook
    by_cases hsk : s = k
    · rw [if_pos hsk] at hlook
      obtain rfl : c₀ = c := by simpa using hlook
      exact ⟨by simpa using hce, hcn⟩
    · rw [if_neg hsk] at hlook
      exact ih ht hlook

/-- A node with no children, no parameter child, no wildcard child and no
value leaves every descent value-free. -/
theorem valueFree_empty_node {T : Type} (rest : List String) (s' : String)
    (ty : NodeType) (pn wn fp : String) :
    valueFree (Node.mk s' ty ([] : List (String × Node T)) pn none wn none none fp)
      rest = true := by
  induction rest with
  | nil => rfl
  | cons s r ih =>
    by_cases hs : s = ""
    · subst hs
      simpa [valueFree, getAt] using ih
    · by_cases hcolon : chStartsWith s ':' = true
      · simp [valueFree, getAt, hs, hcolon, Node.paramChild]
      · by_cases hstar : chStartsWith s '*' = true
        · simp [valueFree, getAt, hs, hcolon, hstar, Node.wildChild]
        · simp [valueFree, getAt, hs, hcolon, hstar, Node.children, alLookup]

/-- Core of claim C8: on a well-formed tree, deleting a freshly accepted
key undoes the insertion exactly, reporting that a value was removed. -/
theorem insertAux_deleteAux {T : Type} (segs : List String) (n : Node T) (path : String)
    (v : T) (hinv : nodeInv n = true) (hfree : valueFree n segs = true)
    (herr : (insertAux n segs path v).2 = none) :
    deleteAux (insertAux n segs path v).1 segs = (n, true) := by
  induction segs generalizing n with
  | nil =>
    obtain ⟨seg, ty, ch, pn, pc, wn, wc, val, fp⟩ := n
    have hval : val = none := by
      have h := hfree
      simp only [valueFree, getAt, Node.value] at h
      exact Option.isNone_iff_eq_none.mp h
    subst hval
    have hfp : fp = "" := by
      have h := hinv
      simp only [nodeInv, Bool.and_eq_true] at h
      have h1 := h.1.1.1
      simp only [Node.value] at h1
      simpa using h1
    subst hfp
    rfl
  | cons s rest ih =>
    obtain ⟨seg, ty, ch, pn, pc, wn, wc, val, fp⟩ := n
    have hinv' := hinv
    simp only [nodeInv, Bool.and_eq_true] at hinv'
    obtain ⟨⟨⟨hvfp, hchinv⟩, hpcinv⟩, hwcinv⟩ := hinv'
    by_cases hs : s = ""
    · subst hs
      rw [insertAux_step_empty] at herr
      rw [insertAux_step_empty, deleteAux_step_empty]
      have hfree' : valueFree (Node.mk seg ty ch pn pc wn wc val fp) rest = true := by
        have h := hfree
        simp only [valueFree, getAt, if_pos rfl] at h ⊢
        exact h
      exact ih _ hinv hfree' herr
    · by_cases hcolon : chStartsWith s ':' = true
      · by_cases hname : strDrop1 s = ""
        · simp [insertAux, hs, hcolon, hname] at herr
        · rcases wc with - | w
          · rcases pc with - | p
            · -- fresh parameter child
              rw [insertAux_step_param_fresh (Node.mk seg ty ch pn none wn none val fp) s rest path v hs hcolon hname rfl rfl]
                at herr ⊢
              have herr' : (insertAux (Node.mk s NodeType.Param [] (strDrop1 s) none ""
                  none none "") rest path v).2 = none := herr
              have hrec := ih (Node.mk s NodeType.Param [] (strDrop1 s) none "" none
                none "") rfl (valueFree_empty_node rest s NodeType.Param (strDrop1 s)
                "" "") herr'
              simp only [deleteAux, if_neg hs, Node.children, Node.paramChild,
                Node.segment, Node.typeOf, Node.paramName, Node.wildName, Node.wildChild,
                Node.value, Node.fullPath]
              rw [childrenInv_lookup_colon ch s hchinv hcolon]
              simp only [hrec]
              simp [isEmptyNode, Node.value, Node.children, Node.paramChild,
                Node.wildChild]
            · -- existing parameter child
              have hpn : p.paramName = strDrop1 s := by
                by_contra hne
                simp [insertAux, hs, hcolon, hname, Node.wildChild, Node.paramChild,
                  hne] at herr
              rw [insertAux_step_param_reuse (Node.mk seg ty ch pn (some p) wn none val fp) p s rest path v hs hcolon hname rfl rfl
                hpn] at herr ⊢
              have herr' : (insertAux p rest path v).2 = none := herr
              simp only [optNodeInv, Bool.and_eq_true] at hpcinv
              obtain ⟨hpe, hpinv⟩ := hpcinv
              have hgat : getAt (Node.mk seg ty ch pn (some p) wn none val fp)
                  (s :: rest) = getAt p rest := by
                simp [getAt, hs, hcolon, Node.paramChild]
              have hfree' : valueFree p rest = true := by
                unfold valueFree at hfree ⊢
                rw [hgat] at hfree
                exact hfree
              have hrec := ih p hpinv hfree' herr'
              simp only [deleteAux, if_neg hs, Node.children, Node.paramChild,
                Node.segment, Node.typeOf, Node.paramName, Node.wildName, Node.wildChild,
                Node.value, Node.fullPath]
              rw [childrenInv_lookup_colon ch s hchinv hcolon]
              simp only [hrec]
              have hpeb : isEmptyNode p = false := by simpa using hpe
              simp [hpeb]
          · simp [insertAux, hs, hcolon, hname, Node.wildChild] at herr
      · by_cases hstar : chStartsWith s '*' = true
        · have hcolon' : chStartsWith s ':' = false := by simpa using hcolon
          by_cases hname : strDrop1 s = ""
          · simp [insertAux, hs, hcolon, hstar, hname] at herr
          · by_cases hrest : rest = []
            case neg =>
              simp [insertAux, hs, hcolon, hstar, hname, hrest] at herr
            case pos =>
              subst hrest
              rcases ch with - | ⟨hd, tl⟩
              case cons =>
                simp [insertAux, hs, hcolon, hstar, hname, Node.children,
                  List.isEmpty] at herr
              case nil =>
                rcases pc with - | p
                case some =>
                  simp [insertAux, hs, hcolon, hstar, hname, Node.children,
                    Node.paramChild, List.isEmpty] at herr
                case none =>
                  rcases wc with - | w
                  · -- fresh wildcard child
                    rw [insertAux_step_wild_fresh (Node.mk seg ty [] pn none wn none val fp) s [] path v
                      hs hcolon' hstar hname rfl rfl rfl rfl]
                    simp only [deleteAux, if_neg hs, Node.children, Node.paramChild,
                      Node.segment, Node.typeOf, Node.paramName, Node.wildName,
                      Node.wildChild, Node.value, Node.fullPath, alLookup]
                    simp [insertAux, clearValue, isEmptyNode, Node.children,
                      Node.paramChild, Node.wildChild, Node.value, Node.segment,
                      Node.typeOf, Node.paramName, Node.wildName, Node.fullPath]
                  · -- existing wildcard child
                    obtain ⟨wseg, wty, wch, wpn, wpc, wwn, wwc, wval, wfp⟩ := w
                    have hwval : wval = none := by
                      have h := hfree
                      simp only [valueFree, getAt, if_neg hs, hcolon', hstar,
                        Node.wildChild, Node.value] at h
                      simpa using h
                    subst hwval
                    simp only [optNodeInv, Bool.and_eq_true] at hwcinv
                    obtain ⟨hwe, hwinv⟩ := hwcinv
                    have hwfp : wfp = "" := by
                      simp only [nodeInv, Bool.and_eq_true] at hwinv
                      have h1 := hwinv.1.1.1
                      simp only [Node.value] at h1
                      simpa using h1
                    subst hwfp
                    rw [insertAux_step_wild_reuse (Node.mk seg ty [] pn none wn (some (Node.mk wseg wty
                      wch wpn wpc wwn wwc none "")) val fp) (Node.mk wseg wty wch wpn
                      wpc wwn wwc none "") s [] path v hs hcolon' hstar hname rfl rfl
                      rfl rfl]
                    simp only [deleteAux, if_neg hs, Node.children, Node.paramChild,
                      Node.segment, Node.typeOf, Node.paramName, Node.wildName,
                      Node.wildChild, Node.value, Node.fullPath, alLookup]
                    simp only [insertAux, clearValue, Node.children, Node.paramChild,
                      Node.segment, Node.typeOf, Node.paramName, Node.wildName,
                      Node.wildChild, Node.value, Node.fullPath]
                    have hweb : isEmptyNode (Node.mk wseg wty wch wpn wpc wwn wwc
                        (none : Option T) "") = false := by simpa using hwe
                    simp [hweb]
        · have hcolon' : chStartsWith s ':' = false := by simpa using hcolon
          have hstar' : chStartsWith s '*' = false := by simpa using hstar
          rcases hlook : alLookup ch s with - | c
          · -- fresh static child
            rw [insertAux_step_static_fresh (Node.mk seg ty ch pn pc wn wc val fp) s rest path v hs hcolon' hstar'
              (by simpa [Node.children] using hlook)] at herr ⊢
            have herr' : (insertAux (Node.mk s NodeType.Static [] "" none "" none
                none "") rest path v).2 = none := herr
            have hrec := ih (Node.mk s NodeType.Static [] "" none "" none none "") rfl
              (valueFree_empty_node rest s NodeType.Static "" "" "") herr'
            simp only [deleteAux, if_neg hs, Node.children, Node.paramChild,
              Node.segment, Node.typeOf, Node.paramName, Node.wildName, Node.wildChild,
              Node.value, Node.fullPath]
            rw [alLookup_alSet_self]
            simp only [hrec]
            have hemp : isEmptyNode (Node.mk s NodeType.Static ([] : List (String ×
                Node T)) "" none "" none none "") = true := by
              simp [isEmptyNode, Node.value, Node.children, Node.paramChild,
                Node.wildChild]
            simp only [hemp, Bool.and_true, Bool.and_self]
            rw [alSet_absent ch s _ hlook, alRemove_append_absent ch s _ hlook]
            simp
          · -- existing static child
            rw [insertAux_step_static_reuse (Node.mk seg ty ch pn pc wn wc val fp) c s rest path v hs hcolon' hstar'
              (by simpa [Node.children] using hlook)] at herr ⊢
            have herr' : (insertAux c rest path v).2 = none := herr
            obtain ⟨hce, hcinv⟩ := childrenInv_lookup_some ch s c hchinv hlook
            have hgat : getAt (Node.mk seg ty ch pn pc wn wc val fp) (s :: rest) =
                getAt c rest := by
              simp [getAt, hs, hcolon', hstar', Node.children, hlook]
            have hfree' : valueFree c rest = true := by
              unfold valueFree at hfree ⊢
              rw [hgat] at hfree
              exact hfree
            have hrec := ih c hcinv hfree' herr'
            simp only [deleteAux, if_neg hs, Node.children, Node.paramChild,
              Node.segment, Node.typeOf, Node.paramName, Node.wildName, Node.wildChild,
              Node.value, Node.fullPath]
            rw [alLookup_alSet_self]
            simp only [hrec]
            simp only [hce, Bool.and_false]
            rw [alSet_alSet, alSet_same ch s c hlook]
            simp

/-- Counterexample to claim C8: the key `/a` is accepted by Insert on a
tree in which `/a` already holds value 1, but Insert(/a, 2) followed by
Delete(/a) does NOT restore the tree: the deletion removes the key
entirely instead of restoring the previous value. -/
theorem insert_delete_not_restored_on_overwrite :
    (RouteTree.Delete (RouteTree.Insert preTree "/a" 2).1 "/a").1 ≠ preTree := by
  intro h
  have h2 := congrArg (fun tr => RouteTree.Lookup tr "/a") h
  revert h2
  decide

/-- Amended claim C8: for every well-formed tree t (static child keys
carry no parameter or wildcard marker, value-less nodes have an empty
full path and no non-root node is value-less and child-less) and every
key k accepted by Insert whose descent target holds NO value in t,
performing Insert(k, v) and then Delete(k) reports a removal and yields
a tree structurally equal to t. -/
theorem insert_delete_roundtrip :
    ∀ (t : Node Nat) (k : String) (v : Nat), nodeInv t = true →
      valueFree t (splitPath k) = true → (RouteTree.Insert t k v).2 = none →
      RouteTree.Delete (RouteTree.Insert t k v).1 k = (t, true) := by
  intro t k v hinv hfree herr
  by_cases hvalid : ((k == "") || !(chStartsWith k '/')) = true
  · rw [RouteTree.Insert, if_pos hvalid] at herr
    simp at herr
  · rw [RouteTree.Insert, if_neg hvalid] at herr ⊢
    rw [RouteTree.Delete, if_neg hvalid]
    exact insertAux_deleteAux (splitPath k) t k v hinv hfree herr

/-- Witness for the amended claim C8: inserting and deleting the fresh
key `/b` on the tree that holds `/a` restores it exactly. -/
theorem insert_delete_roundtrip_witness :
    nodeInv preTree = true ∧ valueFree preTree (splitPath "/b") = true ∧
    (RouteTree.Insert preTree "/b" 5).2 = none ∧
    RouteTree.Delete (RouteTree.Insert preTree "/b" 5).1 "/b" = (preTree, true) :=
  ⟨by decide, by decide, by decide,
    insert_delete_roundtrip preTree "/b" 5 (by decide) (by decide) (by decide)⟩

theorem wrapInt64_eq_self (x : Int) (h₀ : 0 ≤ x) (h₁ : x < 2 ^ 63) :
    wrapInt64 x = x := by
  unfold wrapInt64
  rw [Int.emod_eq_of_lt (by omega) (by omega)]
  omega

theorem tmod_natCast_add (s i n : Nat) :
    Int.tmod ((s : Int) + (i : Int)) (n : Int) = (((s + i) % n : Nat) : Int) := by
  rw [Int.tmod_eq_emod (by positivity) (by positivity)]
  push_cast
  rfl

theorem selectLoop_spec (inst : List ServiceInstance) (live : String → Bool) (s : Nat)
    (hn : 0 < inst.length) :
    ∀ (fuel i : Nat), i + fuel = inst.length →
      selectLoop inst live (s : Int) i fuel =
        match ((List.range' i fuel).map (fun j => (s + j) % inst.length)).find?
            (liveAt inst live) with
        | some idx => SelectResult.ok ((inst.getD idx ⟨"", 0, ""⟩).addr)
        | none => SelectResult.noInvokers := by
  intro fuel
  induction fuel with
  | zero => intro i hi; rfl
  | succ fuel ih =>
    intro i hi
    have hlt : (s + i) % inst.length < inst.length := Nat.mod_lt _ hn
    have hgetd : inst.getD ((s + i) % inst.length) ⟨"", 0, ""⟩ =
        inst[(s + i) % inst.length] := List.getD_eq_getElem inst ⟨"", 0, ""⟩ hlt
    have hstep : selectLoop inst live (s : Int) i (fuel + 1) =
        if live (inst[(s + i) % inst.length].addr) then
          SelectResult.ok (inst[(s + i) % inst.length].addr)
        else selectLoop inst live (s : Int) (i + 1) fuel := by
      rw [selectLoop, tmod_natCast_add]
      rw [if_neg (by omega)]
      rw [Int.toNat_natCast, List.getElem?_eq_getElem hlt]
    rw [hstep, List.range'_succ, List.map_cons, List.find?_cons]
    by_cases hl : live (inst[(s + i) % inst.length].addr) = true
    · have hcond : liveAt inst live ((s + i) % inst.length) = true := by
        unfold liveAt
        rw [hgetd]
        exact hl
      rw [if_pos hl, hcond]
      simp only [hgetd]
    · have hcond : liveAt inst live ((s + i) % inst.length) = false := by
        unfold liveAt
        rw [hgetd]
        exact eq_false_of_ne_true hl
      rw [if_neg hl, hcond, ih (i + 1) (by omega)]

theorem residues_cover (cp n k : Nat) (hn : 0 < n) (hk : k < n) :
    ∃ j, j < n ∧ (cp + j) % n = k := by
  have hr : cp % n < n := Nat.mod_lt _ hn
  by_cases hkb : k < cp % n
  · refine ⟨k + n - cp % n, by omega, ?_⟩
    rw [Nat.add_mod, Nat.mod_eq_of_lt (show k + n - cp % n < n by omega)]
    have h1 : cp % n + (k + n - cp % n) = k + n := by omega
    rw [h1, Nat.add_mod_right, Nat.mod_eq_of_lt hk]
  · refine ⟨k - cp % n, by omega, ?_⟩
    rw [Nat.add_mod, Nat.mod_eq_of_lt (show k - cp % n < n by omega)]
    have h1 : cp % n + (k - cp % n) = k := by omega
    rw [h1, Nat.mod_eq_of_lt hk]

/-- Claim C3: the round-robin selector over an instance list of size n,
whose stored counter holds c when the selection starts (the atomic
increment yields c+1), visits exactly the indices
[(c+1)%n, …, (c+n)%n] in that order and returns the first instance whose
address has a live invoker (the equality with the claim-worded
specification `rrSpecVisit`), fails with the no-instances error exactly
when the instance list is empty, and fails with the no-invoker error
exactly when all instances lack a live invoker.  The counter hypotheses
confine c to the range where the int64 increment does not wrap. -/
theorem getNextInvoker_follows_spec :
    ∀ (pool : ServicePool) (c : Int), 0 ≤ c → c + 1 < 2 ^ 63 →
      getNextInvoker pool c = rrSpecVisit pool.instances pool.invokers c.toNat ∧
      (getNextInvoker pool c = SelectResult.noInstances ↔ pool.instances = []) ∧
      (getNextInvoker pool c = SelectResult.noInvokers ↔
        pool.instances ≠ [] ∧
          ∀ inst ∈ pool.instances, pool.invokers inst.addr = false) := by
  intro pool c hc hlt
  by_cases hn : pool.instances.length = 0
  · have hnil : pool.instances = [] := List.length_eq_zero.mp hn
    have hget : getNextInvoker pool c = SelectResult.noInstances := by
      unfold getNextInvoker
      rw [if_pos hn]
    refine ⟨?_, ?_, ?_⟩
    · rw [hget]
      unfold rrSpecVisit
      rw [if_pos hn]
    · simp [hget, hnil]
    · simp [hget, hnil]
  · have hpos : 0 < pool.instances.length := Nat.pos_of_ne_zero hn
    have hwrap : wrapInt64 (c + 1) = ((c.toNat + 1 : Nat) : Int) := by
      rw [wrapInt64_eq_self _ (by omega) (by omega)]
      omega
    have hmain : getNextInvoker pool c =
        rrSpecVisit pool.instances pool.invokers c.toNat := by
      unfold getNextInvoker rrSpecVisit
      rw [if_neg hn, if_neg hn, hwrap]
      rw [selectLoop_spec pool.instances pool.invokers (c.toNat + 1) hpos
        pool.instances.length 0 (by omega), List.range_eq_range']
    refine ⟨hmain, ?_, ?_⟩
    · constructor
      · intro h
        rw [hmain] at h
        unfold rrSpecVisit at h
        rw [if_neg hn] at h
        rcases hfind : ((List.range pool.instances.length).map
            (fun i => (c.toNat + 1 + i) % pool.instances.length)).find?
            (liveAt pool.instances pool.invokers) with - | idx <;>
          rw [hfind] at h <;> simp at h
      · intro h
        exact absurd (by rw [h]; rfl) hn
    · rw [hmain]
      unfold rrSpecVisit
      rw [if_neg hn]
      constructor
      · intro h
        rcases hfind : ((List.range pool.instances.length).map
            (fun i => (c.toNat + 1 + i) % pool.instances.length)).find?
            (liveAt pool.instances pool.invokers) with - | idx
        · refine ⟨fun hnil => hn (by rw [hnil]; rfl), ?_⟩
          intro a ha
          obtain ⟨k, hk, rfl⟩ := List.mem_iff_getElem.mp ha
          obtain ⟨j, hj, hjk⟩ := residues_cover (c.toNat + 1) _ k hpos hk
          have hmem : k ∈ (List.range pool.instances.length).map
              (fun i => (c.toNat + 1 + i) % pool.instances.length) :=
            List.mem_map.mpr ⟨j, List.mem_range.mpr hj, hjk⟩
          have hnl := List.find?_eq_none.mp hfind k hmem
          have hfalse : liveAt pool.instances pool.invokers k = false :=
            eq_false_of_ne_true hnl
          unfold liveAt at hfalse
          rwa [List.getD_eq_getElem _ _ hk] at hfalse
        · rw [hfind] at h
          simp at h
      · rintro ⟨hne, hall⟩
        have hfind : ((List.range pool.instances.length).map
            (fun i => (c.toNat + 1 + i) % pool.instances.length)).find?
            (liveAt pool.instances pool.invokers) = none := by
          refine List.find?_eq_none.mpr ?_
          intro x hx
          obtain ⟨j, hjmem, rfl⟩ := List.mem_map.mp hx
          have hxlt : (c.toNat + 1 + j) % pool.instances.length <
              pool.instances.length := Nat.mod_lt _ hpos
          unfold liveAt
          rw [List.getD_eq_getElem _ _ hxlt]
          have hmem2 := List.getElem_mem hxlt
          rw [hall _ hmem2]
          simp
        rw [hfind]

/-- Witness for claim C3: a pool of three instances where only the third
has a live invoker, starting at counter 4. -/
theorem getNextInvoker_follows_spec_witness :
    (0 : Int) ≤ 4 ∧ (4 : Int) + 1 < 2 ^ 63 ∧
      (getNextInvoker ⟨"svc", fun a => a == "c:3",
        [⟨"a", 1, "a:1"⟩, ⟨"b", 2, "b:2"⟩, ⟨"c", 3, "c:3"⟩]⟩ 4 =
        rrSpecVisit [⟨"a", 1, "a:1"⟩, ⟨"b", 2, "b:2"⟩, ⟨"c", 3, "c:3"⟩]
          (fun a => a == "c:3") (Int.toNat 4)) :=
  ⟨by decide, by decide,
    (getNextInvoker_follows_spec ⟨"svc", fun a => a == "c:3",
      [⟨"a", 1, "a:1"⟩, ⟨"b", 2, "b:2"⟩, ⟨"c", 3, "c:3"⟩]⟩ 4 (by decide) (by decide)).1⟩

/-- Counterexample to claim C9: with two instances and a stored counter
of -2 (a value the wrapping int64 increment can produce), the computed
index (-1) mod 2 is -1 in Go truncated arithmetic, and the slice access
faults instead of returning an invoker or an error. -/
theorem getNextInvoker_wraparound_faults :
    getNextInvoker ⟨"svc", fun _ => true, [⟨"a", 1, "a:1"⟩, ⟨"b", 2, "b:2"⟩]⟩ (-2) =
      SelectResult.fault := by decide

theorem selectLoop_no_fault (inst : List ServiceInstance) (live : String → Bool)
    (s : Nat) (hn : 0 < inst.length) :
    ∀ (fuel i : Nat), selectLoop inst live (s : Int) i fuel ≠ SelectResult.fault := by
  intro fuel
  induction fuel with
  | zero => intro i h; simp [selectLoop] at h
  | succ fuel ih =>
    intro i
    have hlt : (s + i) % inst.length < inst.length := Nat.mod_lt _ hn
    have hstep : selectLoop inst live (s : Int) i (fuel + 1) =
        if live (inst[(s + i) % inst.length].addr) then
          SelectResult.ok (inst[(s + i) % inst.length].addr)
        else selectLoop inst live (s : Int) (i + 1) fuel := by
      rw [selectLoop, tmod_natCast_add]
      rw [if_neg (by omega)]
      rw [Int.toNat_natCast, List.getElem?_eq_getElem hlt]
    rw [hstep]
    by_cases hl : live (inst[(s + i) % inst.length].addr) = true
    · simp [hl]
    · rw [if_neg hl]
      exact ih (i + 1)

/-- Amended claim C9: for every pool state and every counter value in the
non-wrapping range (0 ≤ c and c + 1 below 2^63), every index the loop
computes lies within bounds and getNextInvoker returns an invoker or an
error, never faulting; outside that range — after an int64 wrap-around
produces a negative counter — the index becomes negative and the slice
access faults, as the counterexample shows. -/
theorem getNextInvoker_no_fault :
    ∀ (pool : ServicePool) (c : Int), 0 ≤ c → c + 1 < 2 ^ 63 →
      getNextInvoker pool c ≠ SelectResult.fault := by
  intro pool c hc hlt
  by_cases hn : pool.instances.length = 0
  · unfold getNextInvoker
    rw [if_pos hn]
    simp
  · have hpos := Nat.pos_of_ne_zero hn
    have hwrap : wrapInt64 (c + 1) = ((c.toNat + 1 : Nat) : Int) := by
      rw [wrapInt64_eq_self _ (by omega) (by omega)]
      omega
    unfold getNextInvoker
    rw [if_neg hn, hwrap]
    exact selectLoop_no_fault pool.instances pool.invokers (c.toNat + 1) hpos
      pool.instances.length 0

/-- Witness for the amended claim C9 at a concrete pool where no invoker
is live and the counter is 7. -/
theorem getNextInvoker_no_fault_witness :
    (0 : Int) ≤ 7 ∧ (7 : Int) + 1 < 2 ^ 63 ∧
      getNextInvoker ⟨"svc", fun _ => false, [⟨"a", 1, "a:1"⟩, ⟨"b", 2, "b:2"⟩]⟩ 7 ≠
        SelectResult.fault :=
  ⟨by decide, by decide,
    getNextInvoker_no_fault ⟨"svc", fun _ => false, [⟨"a", 1, "a:1"⟩, ⟨"b", 2, "b:2"⟩]⟩
      7 (by decide) (by decide)⟩

theorem listRemove_append_self (l : List String) (k : String)
    (h : l.contains k = false) : listRemove (l ++ [k]) k = l := by
  induction l with
  | nil => simp [listRemove]
  | cons x t ih =>
    simp only [List.contains_cons, Bool.or_eq_false_iff] at h
    have hx : ¬ x = k := by
      intro hxk
      subst hxk
      simp at h
    simp only [List.cons_append, listRemove, if_neg hx, List.append_eq]
    rw [ih h.2]

theorem contains_append_self (l : List String) (k : String) :
    (l ++ [k]).contains k = true := by
  simp

/-- The generic insert-then-delete restoration, shared by the registry
reasoning: identical to the Nat-valued statement but for any value
type. -/
theorem insert_delete_restore {T : Type} (t : Node T) (k : String) (v : T)
    (hinv : nodeInv t = true) (hfree : valueFree t (splitPath k) = true)
    (herr : (RouteTree.Insert t k v).2 = none) :
    RouteTree.Delete (RouteTree.Insert t k v).1 k = (t, true) := by
  by_cases hvalid : ((k == "") || !(chStartsWith k '/')) = true
  · rw [RouteTree.Insert, if_pos hvalid] at herr
    simp at herr
  · rw [RouteTree.Insert, if_neg hvalid] at herr ⊢
    rw [RouteTree.Delete, if_neg hvalid]
    exact insertAux_deleteAux (splitPath k) t k v hinv hfree herr

/-- Claim C6: when two services publish routes claiming the same
normalized path key, the first service to register wins.  The first
registration installs the key (tree value inserted, key present in the
path index, recorded under the first service in the route index); the
second registration returns success but is silently skipped (tree,
path index unchanged, no route-index entry for the second service); and
unregistering the first service afterwards removes the key from the
tree and both indexes entirely — the tree returns to its
pre-registration state, so the second service's route is not promoted. -/
theorem register_first_wins (st : RouterState) (svc1 svc2 key : String) (r1 r2 : Route)
    (hsvc1 : strTrimSpace svc1 ≠ "") (hsvc2 : strTrimSpace svc2 ≠ "")
    (hne : svc2 ≠ svc1)
    (hno1 : alLookup st.routeIndex svc1 = none)
    (hno2 : alLookup st.routeIndex svc2 = none)
    (hkey : st.pathIndex.contains key = false)
    (hinv : nodeInv st.routerTree = true)
    (hfree : valueFree st.routerTree (splitPath key) = true)
    (hins : (RouteTree.Insert st.routerTree key r1).2 = none) :
    ((registerService st svc1 [(key, r1)]).2 = none ∧
      (registerService st svc1 [(key, r1)]).1.routerTree =
        (RouteTree.Insert st.routerTree key r1).1 ∧
      (registerService st svc1 [(key, r1)]).1.pathIndex = st.pathIndex ++ [key] ∧
      alLookup (registerService st svc1 [(key, r1)]).1.routeIndex svc1 = some [key]) ∧
    ((registerService (registerService st svc1 [(key, r1)]).1 svc2 [(key, r2)]).2 =
        none ∧
      (registerService (registerService st svc1 [(key, r1)]).1 svc2
          [(key, r2)]).1.routerTree =
        (registerService st svc1 [(key, r1)]).1.routerTree ∧
      (registerService (registerService st svc1 [(key, r1)]).1 svc2
          [(key, r2)]).1.pathIndex =
        (registerService st svc1 [(key, r1)]).1.pathIndex ∧
      alLookup (registerService (registerService st svc1 [(key, r1)]).1 svc2
          [(key, r2)]).1.routeIndex svc2 = none) ∧
    ((unregisterService (registerService (registerService st svc1 [(key, r1)]).1 svc2
        [(key, r2)]).1 svc1).2 = none ∧
      (unregisterService (registerService (registerService st svc1 [(key, r1)]).1 svc2
          [(key, r2)]).1 svc1).1.routerTree = st.routerTree ∧
      (unregisterService (registerService (registerService st svc1 [(key, r1)]).1 svc2
          [(key, r2)]).1 svc1).1.pathIndex = st.pathIndex ∧
      alLookup (unregisterService (registerService (registerService st svc1
          [(key, r1)]).1 svc2 [(key, r2)]).1 svc1).1.routeIndex svc1 = none ∧
      alLookup (unregisterService (registerService (registerService st svc1
          [(key, r1)]).1 svc2 [(key, r2)]).1 svc1).1.routeIndex svc2 = none) := by
  have hval1 : (strTrimSpace svc1 == "") = false := beq_eq_false_iff_ne.mpr hsvc1
  have hval2 : (strTrimSpace svc2 == "") = false := beq_eq_false_iff_ne.mpr hsvc2
  have hkeymem : key ∉ st.pathIndex := by simpa using hkey
  have hst1 : registerService st svc1 [(key, r1)] =
      ({ routerTree := (RouteTree.Insert st.routerTree key r1).1,
         servicePools := ensurePool st.servicePools svc1,
         routeIndex := alSet svc1 [key] st.routeIndex,
         pathIndex := st.pathIndex ++ [key] }, none) := by
    simp [registerService, hval1, hno1, insertRouteStep, hkey, hkeymem, hins]
  have hlook2 : alLookup (alSet svc1 [key] st.routeIndex) svc2 = none := by
    rw [alLookup_alSet, if_neg hne, hno2]
  have hcont : (st.pathIndex ++ [key]).contains key = true := contains_append_self _ _
  have hst2 : registerService (registerService st svc1 [(key, r1)]).1 svc2 [(key, r2)] =
      ({ routerTree := (RouteTree.Insert st.routerTree key r1).1,
         servicePools := ensurePool (ensurePool st.servicePools svc1) svc2,
         routeIndex := alSet svc1 [key] st.routeIndex,
         pathIndex := st.pathIndex ++ [key] }, none) := by
    rw [hst1]
    simp [registerService, hval2, hlook2, insertRouteStep, hcont]

  have hrestore := insert_delete_restore st.routerTree key r1 hinv hfree hins
  have htree : (RouteTree.Delete (RouteTree.Insert st.routerTree key r1).1 key).1 =
      st.routerTree := by rw [hrestore]
  have hst3 : unregisterService (registerService (registerService st svc1
      [(key, r1)]).1 svc2 [(key, r2)]).1 svc1 =
      ({ routerTree := st.routerTree,
         servicePools := alRemove svc1 (ensurePool (ensurePool st.servicePools svc1)
           svc2),
         routeIndex := alRemove svc1 (alSet svc1 [key] st.routeIndex),
         pathIndex := st.pathIndex }, none) := by
    rw [hst2]
    simp only [unregisterService, hval1, Bool.false_eq_true, if_false,
      alLookup_alSet_self, Option.getD_some, List.foldl_cons, List.foldl_nil]
    rw [htree, listRemove_append_self st.pathIndex key hkey]
  have hridx : alRemove svc1 (alSet svc1 [key] st.routeIndex) = st.routeIndex := by
    rw [alSet_absent st.routeIndex svc1 [key] hno1,
      alRemove_append_absent st.routeIndex svc1 [key] hno1]
  refine ⟨⟨?_, ?_, ?_, ?_⟩, ⟨?_, ?_, ?_, ?_⟩, ⟨?_, ?_, ?_, ?_, ?_⟩⟩
  · rw [hst1]
  · rw [hst1]
  · rw [hst1]
  · rw [hst1]
    exact alLookup_alSet_self _ _ _
  · rw [hst2]
  · rw [hst2, hst1]
  · rw [hst2, hst1]
  · rw [hst2]
    exact hlook2
  · rw [hst3]
  · rw [hst3]
  · rw [hst3]
  · rw [hst3]
    simp only []
    rw [hridx]
    exact hno1
  · rw [hst3]
    simp only []
    rw [hridx]
    exact hno2

/-- Witness for claim C6 at a concrete pair of services both claiming
`GET /v1/ping`. -/
theorem register_first_wins_witness :
    strTrimSpace "alpha" ≠ "" ∧ strTrimSpace "beta" ≠ "" ∧ ("beta" : String) ≠ "alpha" ∧
    alLookup demoState.routeIndex "alpha" = none ∧
    alLookup demoState.routeIndex "beta" = none ∧
    demoState.pathIndex.contains "/[GET]/v1/ping" = false ∧
    nodeInv demoState.routerTree = true ∧
    valueFree demoState.routerTree (splitPath "/[GET]/v1/ping") = true ∧
    (RouteTree.Insert demoState.routerTree "/[GET]/v1/ping" demoRoute1).2 = none ∧
    (unregisterService (registerService (registerService demoState "alpha"
        [("/[GET]/v1/ping", demoRoute1)]).1 "beta"
        [("/[GET]/v1/ping", demoRoute2)]).1 "alpha").1.routerTree =
      demoState.routerTree :=
  ⟨by decide, by decide, by decide, by decide, by decide, by decide, by decide, by decide,
    by decide,
    (register_first_wins demoState "alpha" "beta" "/[GET]/v1/ping" demoRoute1 demoRoute2
      (by decide) (by decide) (by decide) (by decide) (by decide) (by decide) (by decide)
      (by decide) (by decide)).2.2.2.1⟩

/-- Claim C10: UnRegisterService on a service name with no registered
routes and no pool returns success and leaves the whole registry state
unchanged (route tree, route index, path index and pool map). -/
theorem unregister_unknown_service_noop (st : RouterState) (svc : String)
    (hsvc : strTrimSpace svc ≠ "")
    (hroutes : alLookup st.routeIndex svc = none)
    (hpool : (alLookup st.servicePools svc).isNone = true) :
    unregisterService st svc = (st, none) := by
  have hval : (strTrimSpace svc == "") = false := beq_eq_false_iff_ne.mpr hsvc
  have hpool' : alLookup st.servicePools svc = none := Option.isNone_iff_eq_none.mp hpool
  simp only [unregisterService, hval, Bool.false_eq_true, if_false, hroutes,
    Option.getD_none, List.foldl_nil]
  rw [alRemove_absent st.servicePools svc hpool',
    alRemove_absent st.routeIndex svc hroutes]

/-- Witness for claim C10: unregistering an unknown service on a fresh
registry is a no-op. -/
theorem unregister_unknown_service_noop_witness :
    strTrimSpace "ghost" ≠ "" ∧ alLookup demoState.routeIndex "ghost" = none ∧
    (alLookup demoState.servicePools "ghost").isNone = true ∧
    unregisterService demoState "ghost" = (demoState, none) :=
  ⟨by decide, by decide, by decide,
    unregister_unknown_service_noop demoState "ghost" (by decide) (by decide)
      (by decide)⟩

/-- Counterexample to claim C7: after initial loading, a metadata Put for
a service with NO known instance set still emits an Update event (with
an empty instance list); the claim says no event is produced in that
case. -/
theorem metadata_put_emits_without_instances :
    handleMetadataEvent ⟨[], [], false⟩ KVEventType.put "user"
      (some ⟨"user", "v1", []⟩) =
      (⟨[("user", ⟨"user", "v1", []⟩)], [], false⟩,
       [⟨EventType.EventUpdate, ⟨⟨"user", "v1", []⟩, []⟩⟩]) := by decide

/-- Amended claim C7: after initial loading, every successfully parsed
metadata Put replaces metadata[s] and emits exactly one Update event
carrying the new metadata and the currently known instance list — the
empty list when no instance set is known.  The event is emitted
unconditionally, not only when instances[s] exists. -/
theorem metadata_put_replaces_and_emits :
    ∀ (w : WatcherState) (svc : String) (m : ServiceMetadata),
      w.initialLoading = false → svc ≠ "" →
      handleMetadataEvent w KVEventType.put svc (some m) =
        ({ w with metadataMap := alSet svc m w.metadataMap },
         [⟨EventType.EventUpdate, ⟨m, (alLookup w.instancesMap svc).getD []⟩⟩]) := by
  intro w svc m hload hsvc
  have hbeq : (svc == "") = false := beq_eq_false_iff_ne.mpr hsvc
  simp [handleMetadataEvent, hbeq, hload]

/-- Witness for the amended claim C7 at a concrete watcher state that
knows one instance set. -/
theorem metadata_put_replaces_and_emits_witness :
    (⟨[], [("user", [⟨"h", 1, "h:1"⟩])], false⟩ : WatcherState).initialLoading = false ∧
    ("user" : String) ≠ "" ∧
    handleMetadataEvent ⟨[], [("user", [⟨"h", 1, "h:1"⟩])], false⟩ KVEventType.put "user"
        (some ⟨"user", "v2", []⟩) =
      (⟨[("user", ⟨"user", "v2", []⟩)], [("user", [⟨"h", 1, "h:1"⟩])], false⟩,
       [⟨EventType.EventUpdate, ⟨⟨"user", "v2", []⟩, [⟨"h", 1, "h:1"⟩]⟩⟩]) := by
  refine ⟨rfl, by decide, ?_⟩
  have h := metadata_put_replaces_and_emits ⟨[], [("user", [⟨"h", 1, "h:1"⟩])], false⟩
    "user" ⟨"user", "v2", []⟩ rfl (by decide)
  exact h.trans (by decide)
